import Mathlib

/-!
Verification development for the LRcaller per-variant genotyping engine
(source: src/algo.hpp).  The C++ data structures and functions are shallowly
embedded: machine integers become Int/Nat, double/float values become ℚ,
std::vector becomes List, in-place updates become functional updates.
Alignment scores stored in the double vector alignS are always integers
(either NO_ALIGNMENT or a score produced by the integer-scored aligner), so
alignS is embedded with Int entries.
-/

/-- One CIGAR element: an operation character and a count
(seqan::CigarElement). -/
structure CigarElement where
  operation : Char
  count : Nat
deriving DecidableEq, Repr

/-- The fields of seqan::BamAlignmentRecord that the genotyping engine reads.
Sequence bases are abstracted as naturals. -/
structure BamAlignmentRecord where
  qName : String
  beginPos : Int
  mapQ : Nat
  seq : List Nat
  cigar : List CigarElement
  flagDuplicate : Bool
  flagQCNoPass : Bool
deriving DecidableEq, Repr

/-- The fields of seqan::VcfRecord used by the engine.  The comma-separated
alt string is embedded directly as the list of alternate allele sequences
(the code always splits var.alt on commas before use). -/
structure VcfRecord where
  beginPos : Int
  ref : List Nat
  alt : List (List Nat)
  genotypeInfos : List String
  format : String
deriving DecidableEq, Repr

/-- The genotyping_model enum from options.hpp. -/
inductive genotyping_model
  | ad | va | va_old | presence | joint | multi
deriving DecidableEq, Repr

/-- The LRCOptions fields consumed by the functions embedded here. -/
structure LRCOptions where
  genotypeRightBreakpoint : Bool
  maxSoftClipped : Nat
  maxBARcount : Nat
  minMapQ : Nat
  logScaleFactor : ℚ
  maxAlignBits : ℚ
  overlapBits : ℚ
  altThreshFraction : ℚ
  altThreshFractionMax : ℚ
  refThreshFraction : ℚ
  minPresent : Nat
  gtModel : genotyping_model
deriving DecidableEq, Repr

/-- Per-read, per-variant alignment information (class varAlignInfo).
The constructor invariant of the C++ class is alignS.length = nAlleles. -/
structure varAlignInfo where
  qname : String
  nD : Nat
  nI : Nat
  nAlleles : Nat
  alignS : List Int
  softClipped : Bool
  alignsLeft : Bool
  alignsRight : Bool
deriving DecidableEq, Repr

/-- Sentinel score (#define NO_ALIGNMENT -10000). -/
def NO_ALIGNMENT : Int := -10000

/-! ### Generic list helpers used by the embedding -/

/-- Pointwise update of a vector by an index-dependent function, starting the
index count at i.  Embeds C++ loops of the shape
for (i = 0; i < n; i++) v[i] = f(i, v[i]). -/
def updIdx (f : Nat → ℚ → ℚ) : Nat → List ℚ → List ℚ
  | _, [] => []
  | i, p :: ps => f i p :: updIdx f (i + 1) ps

theorem length_updIdx (f : Nat → ℚ → ℚ) (i : Nat) (ps : List ℚ) :
    (updIdx f i ps).length = ps.length := by
  induction ps generalizing i with
  | nil => rfl
  | cons p ps ih => simp [updIdx, ih]

theorem getD_updIdx (f : Nat → ℚ → ℚ) (i : Nat) (ps : List ℚ) (j : Nat) (d : ℚ)
    (h : j < ps.length) : (updIdx f i ps).getD j d = f (i + j) (ps.getD j d) := by
  induction ps generalizing i j with
  | nil => simp at h
  | cons p ps ih =>
    cases j with
    | zero => simp [updIdx]
    | succ j =>
      simp only [updIdx, List.getD_cons_succ]
      rw [ih (i + 1) j (by simpa using h)]
      ring_nf

/-- Embeds v[i] += x on a ℚ vector. -/
def bump (l : List ℚ) (i : Nat) (x : ℚ) : List ℚ := l.set i (l.getD i 0 + x)

/-- Embeds v[i]++ on a counter vector. -/
def bumpCount (l : List Nat) (i : Nat) : List Nat := l.set i (l.getD i 0 + 1)

theorem getD_set_self {α : Type} (l : List α) (i : Nat) (a d : α)
    (h : i < l.length) : (l.set i a).getD i d = a := by
  simp [List.getD_eq_getElem?_getD, List.getElem?_set, h]

theorem getD_set_ne {α : Type} (l : List α) (i j : Nat) (a d : α)
    (h : i ≠ j) : (l.set i a).getD j d = l.getD j d := by
  simp [List.getD_eq_getElem?_getD, List.getElem?_set, h]

theorem getD_replicate {α : Type} (n j : Nat) (a d : α) (h : j < n) :
    (List.replicate n a).getD j d = a := by
  induction n generalizing j with
  | zero => omega
  | succ n ih =>
    cases j with
    | zero => simp [List.replicate]
    | succ j => simpa [List.replicate] using ih j (by omega)

/-- Scan of a list keeping the running maximum and the index of its first
occurrence; the index count starts at i, the incumbent is (best, bi).
Embeds the maximum-search loops of the C++ code. -/
def firstMaxFrom {α : Type} [LinearOrder α] : List α → α → Nat → Nat → α × Nat
  | [], best, _, bi => (best, bi)
  | x :: xs, best, i, bi =>
    if best < x then firstMaxFrom xs x (i + 1) i else firstMaxFrom xs best (i + 1) bi

/-- Scan keeping the running minimum and the index of its first occurrence. -/
def firstMinFrom {α : Type} [LinearOrder α] : List α → α → Nat → Nat → α × Nat
  | [], best, _, bi => (best, bi)
  | x :: xs, best, i, bi =>
    if x < best then firstMinFrom xs x (i + 1) i else firstMinFrom xs best (i + 1) bi

theorem firstMaxFrom_spec {α : Type} [LinearOrder α] (xs : List α) :
    ∀ (best : α) (i bi : Nat) (d : α),
      (firstMaxFrom xs best i bi = (best, bi) ∧ ∀ j, j < xs.length → xs.getD j d ≤ best)
    ∨ (∃ k, k < xs.length ∧ firstMaxFrom xs best i bi = (xs.getD k d, i + k)
        ∧ best < xs.getD k d
        ∧ (∀ j, j < k → xs.getD j d < xs.getD k d)
        ∧ (∀ j, j < xs.length → xs.getD j d ≤ xs.getD k d)) := by
  induction xs with
  | nil => intro best i bi d; left; exact ⟨rfl, fun j hj => by simp at hj⟩
  | cons x xs ih =>
    intro best i bi d
    by_cases hx : best < x
    · rcases ih x (i + 1) i d with ⟨h1, h2⟩ | ⟨k, hk, heq, hlt, hfirst, hmax⟩
      · right
        refine ⟨0, by simp, ?_, by simpa using hx, fun j hj => by omega, ?_⟩
        · simpa [firstMaxFrom, hx] using h1
        · intro j hj
          cases j with
          | zero => simp
          | succ j => simpa using h2 j (by simpa using hj)
      · right
        refine ⟨k + 1, by simpa using hk, ?_, ?_, ?_, ?_⟩
        · simp only [firstMaxFrom, if_pos hx, List.getD_cons_succ]
          rw [heq]; congr 1; omega
        · simpa using lt_trans hx hlt
        · intro j hj
          cases j with
          | zero => simpa using hlt
          | succ j => simpa using hfirst j (by omega)
        · intro j hj
          cases j with
          | zero => simpa using le_of_lt hlt
          | succ j => simpa using hmax j (by simpa using hj)
    · rcases ih best (i + 1) bi d with ⟨h1, h2⟩ | ⟨k, hk, heq, hlt, hfirst, hmax⟩
      · left
        refine ⟨by simpa [firstMaxFrom, hx] using h1, ?_⟩
        intro j hj
        cases j with
        | zero =>
          simp only [List.getD_cons_zero]
          exact le_of_not_lt hx
        | succ j => simpa using h2 j (by simpa using hj)
      · right
        refine ⟨k + 1, by simpa using hk, ?_, ?_, ?_, ?_⟩
        · simp only [firstMaxFrom, if_neg hx, List.getD_cons_succ]
          rw [heq]; congr 1; omega
        · simpa using hlt
        · intro j hj
          cases j with
          | zero => simpa using lt_of_le_of_lt (le_of_not_lt hx) hlt
          | succ j => simpa using hfirst j (by omega)
        · intro j hj
          cases j with
          | zero => simpa using le_of_lt (lt_of_le_of_lt (le_of_not_lt hx) hlt)
          | succ j => simpa using hmax j (by simpa using hj)

theorem firstMinFrom_spec {α : Type} [LinearOrder α] (xs : List α) :
    ∀ (best : α) (i bi : Nat) (d : α),
      (firstMinFrom xs best i bi = (best, bi) ∧ ∀ j, j < xs.length → best ≤ xs.getD j d)
    ∨ (∃ k, k < xs.length ∧ firstMinFrom xs best i bi = (xs.getD k d, i + k)
        ∧ xs.getD k d < best
        ∧ (∀ j, j < k → xs.getD k d < xs.getD j d)
        ∧ (∀ j, j < xs.length → xs.getD k d ≤ xs.getD j d)) := by
  induction xs with
  | nil => intro best i bi d; left; exact ⟨rfl, fun j hj => by simp at hj⟩
  | cons x xs ih =>
    intro best i bi d
    by_cases hx : x < best
    · rcases ih x (i + 1) i d with ⟨h1, h2⟩ | ⟨k, hk, heq, hlt, hfirst, hmax⟩
      · right
        refine ⟨0, by simp, ?_, by simpa using hx, fun j hj => by omega, ?_⟩
        · simpa [firstMinFrom, hx] using h1
        · intro j hj
          cases j with
          | zero => simp
          | succ j => simpa using h2 j (by simpa using hj)
      · right
        refine ⟨k + 1, by simpa using hk, ?_, ?_, ?_, ?_⟩
        · simp only [firstMinFrom, if_pos hx, List.getD_cons_succ]
          rw [heq]; congr 1; omega
        · simpa using lt_trans hlt hx
        · intro j hj
          cases j with
          | zero => simpa using hlt
          | succ j => simpa using hfirst j (by omega)
        · intro j hj
          cases j with
          | zero => simpa using le_of_lt hlt
          | succ j => simpa using hmax j (by simpa using hj)
    · rcases ih best (i + 1) bi d with ⟨h1, h2⟩ | ⟨k, hk, heq, hlt, hfirst, hmax⟩
      · left
        refine ⟨by simpa [firstMinFrom, hx] using h1, ?_⟩
        intro j hj
        cases j with
        | zero =>
          simp only [List.getD_cons_zero]
          exact le_of_not_lt hx
        | succ j => simpa using h2 j (by simpa using hj)
      · right
        refine ⟨k + 1, by simpa using hk, ?_, ?_, ?_, ?_⟩
        · simp only [firstMinFrom, if_neg hx, List.getD_cons_succ]
          rw [heq]; congr 1; omega
        · simpa using hlt
        · intro j hj
          cases j with
          | zero => simpa using lt_of_lt_of_le hlt (le_of_not_lt hx)
          | succ j => simpa using hfirst j (by omega)
        · intro j hj
          cases j with
          | zero =>
            simpa using le_trans (le_of_lt hlt) (le_of_not_lt hx)
          | succ j => simpa using hmax j (by simpa using hj)

/-! ### Triangular genotype indexing helpers -/

/-- The genotype-pair stepping used by getGtString: (a1, a2) walks
(0,0), (1,0), (1,1), (2,0), (2,1), (2,2), ... -/
def pairStep : Nat × Nat → Nat × Nat
  | (a1, a2) => if a2 < a1 then (a1, a2 + 1) else (a1 + 1, 0)

/-- The pair reached after n steps from (0,0). -/
def pairAt : Nat → Nat × Nat
  | 0 => (0, 0)
  | n + 1 => pairStep (pairAt n)

theorem pairAt_snd_le (n : Nat) : (pairAt n).2 ≤ (pairAt n).1 := by
  induction n with
  | zero => simp [pairAt]
  | succ n ih =>
    rcases h : pairAt n with ⟨a1, a2⟩
    rw [h] at ih
    simp only [pairAt, h, pairStep]
    by_cases h2 : a2 < a1
    · simp only [if_pos h2]; omega
    · simp only [if_neg h2]; omega

theorem tri_succ (a : Nat) : (a + 1) * (a + 2) / 2 = a * (a + 1) / 2 + (a + 1) := by
  have h1 : a * (a + 1) / 2 * 2 = a * (a + 1) :=
    Nat.div_mul_cancel (Nat.even_mul_succ_self a).two_dvd
  have h2 : (a + 1) * (a + 2) / 2 * 2 = (a + 1) * (a + 2) :=
    Nat.div_mul_cancel (Nat.even_mul_succ_self (a + 1)).two_dvd
  have h3 : (a + 1) * (a + 2) = a * (a + 1) + 2 * (a + 1) := by ring
  omega

theorem pairAt_flat (n : Nat) :
    (pairAt n).1 * ((pairAt n).1 + 1) / 2 + (pairAt n).2 = n := by
  induction n with
  | zero => simp [pairAt]
  | succ n ih =>
    have hle := pairAt_snd_le n
    rcases h : pairAt n with ⟨a1, a2⟩
    rw [h] at ih hle
    simp only at ih hle
    simp only [pairAt, h, pairStep]
    by_cases h2 : a2 < a1
    · simp only [if_pos h2]; omega
    · have ha : a2 = a1 := by omega
      simp only [if_neg h2]
      have ht := tri_succ a1
      show (a1 + 1) * (a1 + 2) / 2 + 0 = n + 1
      omega

theorem headD_eq_getD {α : Type} (l : List α) (d : α) : l.headD d = l.getD 0 d := by
  cases l <;> rfl

/-! ### varAlignInfo::alignmentPreference (the ad-model scorer) -/

/-- Embeds varAlignInfo::alignmentPreference (src/algo.hpp:115-154).
The C++ statement int minAlignScore = static_cast<double>(wSizeActual) * 1.2
truncates the double product toward zero; for every size_t w of realistic
magnitude the product rounds so that the result is exactly ⌊6w/5⌋, which is
how it is embedded.  The loop bound nAlleles equals alignS.length by the
class constructor invariant, so the scan runs over alignS. -/
def alignmentPreference (vai : varAlignInfo) (wSizeActual : Nat) (O : LRCOptions)
    (pref : List ℚ) : Option Nat × List ℚ :=
  let minAlignScore : Int := ((6 * wSizeActual) / 5 : Nat)
  let scan := firstMaxFrom vai.alignS (vai.alignS.headD 0) 0 0
  if scan.1 = NO_ALIGNMENT ∨ scan.1 ≤ minAlignScore then (none, pref)
  else
    let pref2 := updIdx (fun i p =>
      if i < vai.nAlleles then
        let d : ℚ := ((scan.1 : ℚ) - (vai.alignS.getD i 0 : ℚ)) / O.logScaleFactor
        let d2 : ℚ := if vai.alignS.getD i 0 = NO_ALIGNMENT ∨ vai.alignS.getD i 0 ≤ minAlignScore
          then ((scan.1 : ℚ) - (minAlignScore : ℚ)) / O.logScaleFactor else d
        let d3 : ℚ := if d2 > O.maxAlignBits then O.maxAlignBits else d2
        p + d3
      else p) 0 pref
    (some scan.2, pref2)

/-- Claim C5: under the ad model, with minAlignScore = ⌊1.2 · wSizeActual⌋:
if the maximum of alignS is NO_ALIGNMENT or ≤ minAlignScore, no best allele
is reported and prefs is unchanged; otherwise every allele i gains
d = (maxScore − alignS[i]) / logScaleFactor, with d replaced by
(maxScore − minAlignScore) / logScaleFactor when alignS[i] is NO_ALIGNMENT or
≤ minAlignScore, clamped to at most maxAlignBits, and the index of a maximal
alignment score is returned as best. -/
theorem claim_C5_alignmentPreference (vai : varAlignInfo) (wSizeActual : Nat)
    (O : LRCOptions) (pref : List ℚ)
    (hlen : vai.alignS.length = vai.nAlleles) (hn : 0 < vai.nAlleles)
    (hp : pref.length = vai.nAlleles) :
    ∃ M : Int,
      (∃ j, j < vai.nAlleles ∧ vai.alignS.getD j 0 = M) ∧
      (∀ j, j < vai.nAlleles → vai.alignS.getD j 0 ≤ M) ∧
      ((M = NO_ALIGNMENT ∨ M ≤ ((6 * wSizeActual) / 5 : Nat)) →
        alignmentPreference vai wSizeActual O pref = (none, pref)) ∧
      (¬(M = NO_ALIGNMENT ∨ M ≤ ((6 * wSizeActual) / 5 : Nat)) →
        (∃ i, (alignmentPreference vai wSizeActual O pref).1 = some i ∧
           i < vai.nAlleles ∧ vai.alignS.getD i 0 = M) ∧
        (alignmentPreference vai wSizeActual O pref).2.length = pref.length ∧
        (∀ i, i < vai.nAlleles →
          (alignmentPreference vai wSizeActual O pref).2.getD i 0 =
            pref.getD i 0 +
              min (((M : ℚ) -
                   (if vai.alignS.getD i 0 = NO_ALIGNMENT ∨
                       vai.alignS.getD i 0 ≤ ((6 * wSizeActual) / 5 : Nat)
                    then ((((6 * wSizeActual) / 5 : Nat) : Int) : ℚ)
                    else ((vai.alignS.getD i 0 : Int) : ℚ))) / O.logScaleFactor)
                O.maxAlignBits)) := by
  have hne : vai.alignS ≠ [] := by
    intro h; rw [h] at hlen; simp at hlen; omega
  have hhead : vai.alignS.headD 0 = vai.alignS.getD 0 0 := headD_eq_getD _ _
  rcases firstMaxFrom_spec vai.alignS (vai.alignS.headD 0) 0 0 0 with
    ⟨heq, hbnd⟩ | ⟨k, hk, heq, _hlt, _hfirst, hbnd⟩
  case inl =>
    refine ⟨vai.alignS.headD 0, ⟨0, by omega, hhead.symm⟩, ?_, ?_, ?_⟩
    · intro j hj; exact hbnd j (by omega)
    · intro hgate
      simp only [alignmentPreference, heq]
      rw [if_pos hgate]
    · intro hgate
      refine ⟨⟨0, ?_, by omega, hhead.symm⟩, ?_, ?_⟩
      · simp only [alignmentPreference, heq]
        rw [if_neg hgate]
      · simp only [alignmentPreference, heq]
        rw [if_neg hgate]
        simp [length_updIdx]
      · intro i hi
        simp only [alignmentPreference, heq]
        rw [if_neg hgate]
        simp only []
        rw [getD_updIdx _ _ _ _ _ (by omega)]
        simp only [Nat.zero_add, if_pos hi]
        by_cases hrep : vai.alignS.getD i 0 = NO_ALIGNMENT ∨
            vai.alignS.getD i 0 ≤ (((6 * wSizeActual) / 5 : Nat) : Int)
        · rw [if_pos hrep, if_pos hrep]
          by_cases hcl : ((vai.alignS.headD 0 : ℚ) -
              ((((6 * wSizeActual) / 5 : Nat) : Int) : ℚ)) / O.logScaleFactor > O.maxAlignBits
          · rw [if_pos hcl]
            rw [min_eq_right (le_of_lt hcl)]
          · rw [if_neg hcl]
            rw [min_eq_left (le_of_not_lt hcl)]
        · rw [if_neg hrep, if_neg hrep]
          by_cases hcl : ((vai.alignS.headD 0 : ℚ) -
              ((vai.alignS.getD i 0 : Int) : ℚ)) / O.logScaleFactor > O.maxAlignBits
          · rw [if_pos hcl]
            rw [min_eq_right (le_of_lt hcl)]
          · rw [if_neg hcl]
            rw [min_eq_left (le_of_not_lt hcl)]
  case inr =>
    refine ⟨vai.alignS.getD k 0, ⟨k, by omega, rfl⟩, ?_, ?_, ?_⟩
    · intro j hj; exact hbnd j (by omega)
    · intro hgate
      simp only [alignmentPreference, heq]
      rw [if_pos hgate]
    · intro hgate
      refine ⟨⟨k, ?_, by omega, rfl⟩, ?_, ?_⟩
      · simp only [alignmentPreference, heq]
        rw [if_neg hgate]
        simp
      · simp only [alignmentPreference, heq]
        rw [if_neg hgate]
        simp [length_updIdx]
      · intro i hi
        simp only [alignmentPreference, heq]
        rw [if_neg hgate]
        simp only []
        rw [getD_updIdx _ _ _ _ _ (by omega)]
        simp only [Nat.zero_add, if_pos hi]
        by_cases hrep : vai.alignS.getD i 0 = NO_ALIGNMENT ∨
            vai.alignS.getD i 0 ≤ (((6 * wSizeActual) / 5 : Nat) : Int)
        · rw [if_pos hrep, if_pos hrep]
          by_cases hcl : ((vai.alignS.getD k 0 : ℚ) -
              ((((6 * wSizeActual) / 5 : Nat) : Int) : ℚ)) / O.logScaleFactor > O.maxAlignBits
          · rw [if_pos hcl]
            rw [min_eq_right (le_of_lt hcl)]
          · rw [if_neg hcl]
            rw [min_eq_left (le_of_not_lt hcl)]
        · rw [if_neg hrep, if_neg hrep]
          by_cases hcl : ((vai.alignS.getD k 0 : ℚ) -
              ((vai.alignS.getD i 0 : Int) : ℚ)) / O.logScaleFactor > O.maxAlignBits
          · rw [if_pos hcl]
            rw [min_eq_right (le_of_lt hcl)]
          · rw [if_neg hcl]
            rw [min_eq_left (le_of_not_lt hcl)]

/-! ### varAlignInfo::vaPreference (the va-model scorer) -/

/-- Embeds varAlignInfo::vaPreference (src/algo.hpp:159-198).  The signed
quantities ssize_t insDel = nI - nD and ssize_t cD = altLens[i-1] - refLen
are size_t subtractions converted to ssize_t, which for realistic magnitudes
is the exact integer difference.  The loop for i in [1, nAlleles) reads
altLens[i-1]; under the caller invariant nAlleles = altLens.length + 1 this
is the scan over all alternate alleles embedded here. -/
def vaPreference (vai : varAlignInfo) (O : LRCOptions) (refLen : Nat)
    (altLens : List Nat) (pref : List ℚ) : Option Nat × List ℚ :=
  if vai.softClipped then (none, bump pref 0 O.overlapBits)
  else if ¬vai.alignsLeft ∨ ¬vai.alignsRight then (none, pref)
  else
    let scan := firstMinFrom
      (altLens.map (fun al : Nat =>
        |(al : Int) - (refLen : Int) - ((vai.nI : Int) - (vai.nD : Int))|))
      |(vai.nI : Int) - (vai.nD : Int)| 1 0
    let pref2 := updIdx (fun i p =>
      if i < vai.nAlleles ∧ i ≠ scan.2 then p + O.overlapBits else p) 0 pref
    (some scan.2, pref2)

/-- Claim C4: under the va model: if softClipped, prefs[0] gains overlapBits,
everything else is unchanged and no best is reported; if the read does not
align on both sides, prefs is unchanged and no best is reported; otherwise
the reported best i* minimizes |ΔLen(i) − (nI − nD)| (ΔLen(0) = 0,
ΔLen(i) = altLens[i−1] − refLen, ties to the lowest index), every other
allele gains overlapBits and prefs[i*] is unchanged. -/
theorem claim_C4_vaPreference (vai : varAlignInfo) (O : LRCOptions)
    (refLen : Nat) (altLens : List Nat) (pref : List ℚ)
    (hal : vai.nAlleles = altLens.length + 1) (hp : pref.length = vai.nAlleles) :
    (vai.softClipped →
      (vaPreference vai O refLen altLens pref).1 = none ∧
      (vaPreference vai O refLen altLens pref).2.getD 0 0 = pref.getD 0 0 + O.overlapBits ∧
      (∀ i, 0 < i → (vaPreference vai O refLen altLens pref).2.getD i 0 = pref.getD i 0) ∧
      (vaPreference vai O refLen altLens pref).2.length = pref.length)
    ∧ (¬vai.softClipped → ¬(vai.alignsLeft ∧ vai.alignsRight) →
        vaPreference vai O refLen altLens pref = (none, pref))
    ∧ (¬vai.softClipped → vai.alignsLeft → vai.alignsRight →
        (∃ istar,
          (vaPreference vai O refLen altLens pref).1 = some istar ∧
          istar < vai.nAlleles ∧
          (∀ j, j < vai.nAlleles →
            |(if istar = 0 then 0 else (altLens.getD (istar - 1) 0 : Int) - (refLen : Int)) -
               ((vai.nI : Int) - (vai.nD : Int))| ≤
            |(if j = 0 then 0 else (altLens.getD (j - 1) 0 : Int) - (refLen : Int)) -
               ((vai.nI : Int) - (vai.nD : Int))|) ∧
          (∀ j, j < istar →
            |(if istar = 0 then 0 else (altLens.getD (istar - 1) 0 : Int) - (refLen : Int)) -
               ((vai.nI : Int) - (vai.nD : Int))| <
            |(if j = 0 then 0 else (altLens.getD (j - 1) 0 : Int) - (refLen : Int)) -
               ((vai.nI : Int) - (vai.nD : Int))|) ∧
          (vaPreference vai O refLen altLens pref).2.length = pref.length ∧
          (vaPreference vai O refLen altLens pref).2.getD istar 0 = pref.getD istar 0 ∧
          (∀ j, j < vai.nAlleles → j ≠ istar →
            (vaPreference vai O refLen altLens pref).2.getD j 0 =
              pref.getD j 0 + O.overlapBits))) := by
  have hvget : ∀ j, j < altLens.length →
      (altLens.map (fun al : Nat =>
        |(al : Int) - (refLen : Int) - ((vai.nI : Int) - (vai.nD : Int))|)).getD j 0 =
      |(altLens.getD j 0 : Int) - (refLen : Int) - ((vai.nI : Int) - (vai.nD : Int))| := by
    intro j hj
    rw [List.getD_eq_getElem?_getD, List.getElem?_map, List.getElem?_eq_getElem hj]
    simp [List.getD_eq_getElem?_getD, List.getElem?_eq_getElem hj]
  refine ⟨?_, ?_, ?_⟩
  · intro hsc
    have hv : vaPreference vai O refLen altLens pref = (none, bump pref 0 O.overlapBits) := by
      simp only [vaPreference, if_pos hsc]
    rw [hv]
    refine ⟨rfl, ?_, ?_, by simp [bump]⟩
    · have h0 : 0 < pref.length := by omega
      exact getD_set_self pref 0 _ 0 h0
    · intro i hi
      exact getD_set_ne pref 0 i _ 0 (by omega)
  · intro hsc hnlr
    have hno : ¬vai.alignsLeft ∨ ¬vai.alignsRight := by tauto
    simp only [vaPreference, if_neg hsc, if_pos hno]
  · intro hsc hL hR
    have hno : ¬(¬vai.alignsLeft ∨ ¬vai.alignsRight) := by
      simp [hL, hR]
    have hmaplen : (altLens.map (fun al : Nat =>
        |(al : Int) - (refLen : Int) - ((vai.nI : Int) - (vai.nD : Int))|)).length =
        altLens.length := by simp
    rcases firstMinFrom_spec
        (altLens.map (fun al : Nat =>
          |(al : Int) - (refLen : Int) - ((vai.nI : Int) - (vai.nD : Int))|))
        |(vai.nI : Int) - (vai.nD : Int)| 1 0 0 with
      ⟨heq, hbnd⟩ | ⟨k, hk, heq, hlt2, hfirst, hbnd⟩
    · -- the incumbent (reference allele, index 0) wins
      have hv : vaPreference vai O refLen altLens pref =
          (some 0, updIdx (fun i p =>
            if i < vai.nAlleles ∧ i ≠ 0 then p + O.overlapBits else p) 0 pref) := by
        simp only [vaPreference, if_neg hsc, if_neg hno, heq]
      rw [hv]
      refine ⟨0, rfl, by omega, ?_, ?_, by simp [length_updIdx], ?_, ?_⟩
      · intro j hj
        cases j with
        | zero => simp
        | succ j =>
          simp only [if_pos rfl, if_neg (Nat.succ_ne_zero j), Nat.add_sub_cancel]
          have hb := hbnd j (by omega)
          rw [hvget j (by omega)] at hb
          calc |(0 : Int) - ((vai.nI : Int) - (vai.nD : Int))|
              = |(vai.nI : Int) - (vai.nD : Int)| := by rw [zero_sub, abs_neg]
            _ ≤ _ := hb
      · intro j hj; omega
      · rw [getD_updIdx _ _ _ _ _ (by omega)]
        simp
      · intro j hj hne
        rw [getD_updIdx _ _ _ _ _ (by omega)]
        simp only [Nat.zero_add]
        rw [if_pos ⟨hj, hne⟩]
    · -- a strictly better alternate allele k+1 wins
      have hkget := hvget k (by omega)
      have hv : vaPreference vai O refLen altLens pref =
          (some (1 + k), updIdx (fun i p =>
            if i < vai.nAlleles ∧ i ≠ 1 + k then p + O.overlapBits else p) 0 pref) := by
        simp only [vaPreference, if_neg hsc, if_neg hno, heq]
      rw [hv]
      have hk1 : (1 : Nat) + k = k + 1 := by omega
      refine ⟨1 + k, rfl, by omega, ?_, ?_, by simp [length_updIdx], ?_, ?_⟩
      · intro j hj
        rw [hk1]
        cases j with
        | zero =>
          simp only [Nat.add_sub_cancel, if_neg (Nat.succ_ne_zero k), if_pos rfl]
          rw [hkget] at hlt2
          calc |(altLens.getD k 0 : Int) - (refLen : Int) - ((vai.nI : Int) - (vai.nD : Int))|
              ≤ |(vai.nI : Int) - (vai.nD : Int)| := le_of_lt hlt2
            _ = |(0 : Int) - ((vai.nI : Int) - (vai.nD : Int))| := by rw [zero_sub, abs_neg]
        | succ j =>
          simp only [Nat.add_sub_cancel, if_neg (Nat.succ_ne_zero k),
            if_neg (Nat.succ_ne_zero j)]
          have hb := hbnd j (by omega)
          rw [hkget, hvget j (by omega)] at hb
          exact hb
      · intro j hj
        rw [hk1]
        cases j with
        | zero =>
          simp only [Nat.add_sub_cancel, if_neg (Nat.succ_ne_zero k), if_pos rfl]
          rw [hkget] at hlt2
          calc |(altLens.getD k 0 : Int) - (refLen : Int) - ((vai.nI : Int) - (vai.nD : Int))|
              < |(vai.nI : Int) - (vai.nD : Int)| := hlt2
            _ = |(0 : Int) - ((vai.nI : Int) - (vai.nD : Int))| := by rw [zero_sub, abs_neg]
        | succ j =>
          simp only [Nat.add_sub_cancel, if_neg (Nat.succ_ne_zero k),
            if_neg (Nat.succ_ne_zero j)]
          have hb := hfirst j (by omega)
          rw [hkget, hvget j (by omega)] at hb
          exact hb
      · rw [getD_updIdx _ _ _ _ _ (by omega)]
        simp
      · intro j hj hne
        rw [getD_updIdx _ _ _ _ _ (by omega)]
        simp only [Nat.zero_add]
        rw [if_pos ⟨hj, hne⟩]

/-! ### getGtString (the genotype emitter) -/

/-- The macro constant LL_THRESHOLD = -25.5. -/
def LL_THRESHOLD : ℚ := -(51 / 2)

/-- The macro constant LG10 = 3.322. -/
def LG10 : ℚ := 3322 / 1000

/-- C++ int(x) cast of a double: truncation toward zero. -/
def truncQ (q : ℚ) : Int := q.num.tdiv q.den

/-- The maximum/genotype-pair scan loop of getGtString (src/algo.hpp:241-260):
walks the flat genotype vector while stepping the pair (a1, a2), recording
the pair at every strict improvement of the running maximum. -/
def gtScanGo : List ℚ → ℚ → Nat × Nat → Nat × Nat → ℚ × (Nat × Nat)
  | [], maxP, _, maxA => (maxP, maxA)
  | x :: xs, maxP, a, maxA =>
    if maxP < x then gtScanGo xs x (pairStep a) a else gtScanGo xs maxP (pairStep a) maxA

/-- The scan started as in getGtString: maxP = lls[0], pairs from (0,0). -/
def gtScan (lls : List ℚ) : ℚ × (Nat × Nat) := gtScanGo lls (lls.headD 0) (0, 0) (0, 0)

/-- The genotype pair (maxA1, maxA2) selected by getGtString. -/
def gtPairOf (lls : List ℚ) : Nat × Nat := (gtScan lls).2

/-- The running maximum maxP at the end of the scan. -/
def gtMaxOf (lls : List ℚ) : ℚ := (gtScan lls).1

/-- One PL entry: lp = diff / LG10, floored at LL_THRESHOLD, then int(-10*lp)
(src/algo.hpp:271-279). -/
def plInt (diff : ℚ) : Int :=
  let lp := diff / LG10
  let lp2 := if lp < LL_THRESHOLD then LL_THRESHOLD else lp
  truncQ (-10 * lp2)

/-- The PL vector written by getGtString. -/
def plListOf (lls : List ℚ) : List Int := lls.map (fun x => plInt (x - gtMaxOf lls))

/-- Embeds getGtString (src/algo.hpp:224-284).  The in-place negation
lls[i] = -lls[i] becomes the map at the top; the stream output becomes string
concatenation (the comma loops are the intercalations, faithful for the
nonempty vectors the caller always passes). -/
def getGtString (lls0 : List ℚ) (ads vas : List Nat) (va_reads : List String) : String :=
  let lls := lls0.map (fun x => -x)
  toString (gtPairOf lls).2 ++ "/" ++ toString (gtPairOf lls).1 ++ ":" ++
    String.intercalate "," (ads.map toString) ++ ":" ++
    String.intercalate "," (vas.map toString) ++ ":" ++
    String.intercalate "," ((plListOf lls).map toString) ++ ":" ++
    va_reads.getD 0 "" ++ ":" ++ va_reads.getD 1 ""

theorem gtScanGo_eq (xs : List ℚ) : ∀ (maxP : ℚ) (i bi : Nat),
    gtScanGo xs maxP (pairAt i) (pairAt bi) =
      ((firstMaxFrom xs maxP i bi).1, pairAt (firstMaxFrom xs maxP i bi).2) := by
  induction xs with
  | nil => intro maxP i bi; rfl
  | cons x xs ih =>
    intro maxP i bi
    have hstep : pairStep (pairAt i) = pairAt (i + 1) := rfl
    by_cases hx : maxP < x
    · simp only [gtScanGo, if_pos hx, firstMaxFrom]
      rw [hstep]
      exact ih x (i + 1) i
    · simp only [gtScanGo, if_neg hx, firstMaxFrom]
      rw [hstep]
      exact ih maxP (i + 1) bi

theorem getD_map_of_lt {α β : Type} (f : α → β) (l : List α) (j : Nat) (d : β)
    (d2 : α) (h : j < l.length) : (l.map f).getD j d = f (l.getD j d2) := by
  rw [List.getD_eq_getElem?_getD, List.getElem?_map, List.getElem?_eq_getElem h]
  simp [List.getD_eq_getElem?_getD, List.getElem?_eq_getElem h]

theorem truncQ_eq_floor (q : ℚ) (h : 0 ≤ q) : truncQ q = Int.floor q := by
  rw [truncQ, Int.tdiv_eq_ediv (Rat.num_nonneg.mpr h) (by positivity), Rat.floor_def]

theorem plInt_bounds (diff : ℚ) (h : diff ≤ 0) : 0 ≤ plInt diff ∧ plInt diff ≤ 255 := by
  have hLG : (0 : ℚ) < LG10 := by norm_num [LG10]
  have hlp : diff / LG10 ≤ 0 := div_nonpos_of_nonpos_of_nonneg h (le_of_lt hLG)
  simp only [plInt]
  by_cases hfl : diff / LG10 < LL_THRESHOLD
  · rw [if_pos hfl]
    have : (-10 : ℚ) * LL_THRESHOLD = 255 := by norm_num [LL_THRESHOLD]
    rw [this]
    constructor
    · rw [truncQ_eq_floor _ (by norm_num)]
      rw [Int.floor_nonneg]; norm_num
    · rw [truncQ_eq_floor _ (by norm_num)]
      have h2 : ((255 : ℚ)) = ((255 : Int) : ℚ) := by norm_num
      rw [h2, Int.floor_intCast]
  · rw [if_neg hfl]
    have h1 : 0 ≤ (-10 : ℚ) * (diff / LG10) := by nlinarith
    have h2 : (-10 : ℚ) * (diff / LG10) ≤ 255 := by
      have := le_of_not_lt hfl
      have hthr : LL_THRESHOLD = -(51 / 2 : ℚ) := rfl
      nlinarith [this]
    constructor
    · rw [truncQ_eq_floor _ h1, Int.floor_nonneg]; exact h1
    · rw [truncQ_eq_floor _ h1]
      calc Int.floor ((-10 : ℚ) * (diff / LG10)) ≤ Int.floor ((255 : ℚ)) :=
            Int.floor_le_floor h2
        _ = 255 := by
            have h3 : ((255 : ℚ)) = ((255 : Int) : ℚ) := by norm_num
            rw [h3, Int.floor_intCast]

theorem plInt_zero : plInt 0 = 0 := by
  simp only [plInt]
  rw [if_neg (by norm_num [LL_THRESHOLD, LG10])]
  norm_num [truncQ, LG10]

/-- Claim C3: getGtString emits the genotype pair (a1, a2) whose flat index
g = a1·(a1+1)/2 + a2 maximizes the negated likelihood vector (ties to the
lowest flat index); each PL value is plInt applied to the vC-difference to
the best, every PL is in [0, 255], and the PL at the chosen flat index is 0. -/
theorem claim_C3_getGtString (vC : List ℚ) (h : vC ≠ []) :
    ∃ g a1 a2,
      gtPairOf (vC.map (fun x => -x)) = (a1, a2) ∧
      g = a1 * (a1 + 1) / 2 + a2 ∧ a2 ≤ a1 ∧ g < vC.length ∧
      (vC.map (fun x => -x)).getD g 0 = gtMaxOf (vC.map (fun x => -x)) ∧
      (∀ j, j < vC.length →
        (vC.map (fun x => -x)).getD j 0 ≤ gtMaxOf (vC.map (fun x => -x))) ∧
      (∀ j, j < g →
        (vC.map (fun x => -x)).getD j 0 < gtMaxOf (vC.map (fun x => -x))) ∧
      (∀ j, j < vC.length →
        (plListOf (vC.map (fun x => -x))).getD j 0 =
          plInt (vC.getD g 0 - vC.getD j 0)) ∧
      (∀ j, j < vC.length →
        0 ≤ (plListOf (vC.map (fun x => -x))).getD j 0 ∧
        (plListOf (vC.map (fun x => -x))).getD j 0 ≤ 255) ∧
      (plListOf (vC.map (fun x => -x))).getD g 0 = 0 := by
  have hlen : (vC.map (fun x => -x)).length = vC.length := by simp
  have hne : vC.map (fun x => -x) ≠ [] := by
    intro hcon
    apply h
    cases vC with
    | nil => rfl
    | cons a l => simp at hcon
  have hlenpos : 0 < vC.length := by
    cases vC with
    | nil => exact absurd rfl h
    | cons a l => simp
  have hhead : (vC.map (fun x => -x)).headD 0 = (vC.map (fun x => -x)).getD 0 0 :=
    headD_eq_getD _ _
  have hscan : gtScan (vC.map (fun x => -x)) =
      ((firstMaxFrom (vC.map (fun x => -x)) ((vC.map (fun x => -x)).headD 0) 0 0).1,
        pairAt (firstMaxFrom (vC.map (fun x => -x)) ((vC.map (fun x => -x)).headD 0) 0 0).2) := by
    have := gtScanGo_eq (vC.map (fun x => -x)) ((vC.map (fun x => -x)).headD 0) 0 0
    simpa [gtScan, pairAt] using this
  -- index-level facts from the scan characterization
  have hmain : ∃ gstar, gstar < vC.length ∧
      gtScan (vC.map (fun x => -x)) =
        ((vC.map (fun x => -x)).getD gstar 0, pairAt gstar) ∧
      (∀ j, j < vC.length →
        (vC.map (fun x => -x)).getD j 0 ≤ (vC.map (fun x => -x)).getD gstar 0) ∧
      (∀ j, j < gstar →
        (vC.map (fun x => -x)).getD j 0 < (vC.map (fun x => -x)).getD gstar 0) := by
    rcases firstMaxFrom_spec (vC.map (fun x => -x)) ((vC.map (fun x => -x)).headD 0) 0 0 0 with
      ⟨heq, hbnd⟩ | ⟨k, hk, heq, _hlt, hfirst, hbnd⟩
    · refine ⟨0, hlenpos, ?_, ?_, by omega⟩
      · rw [hscan, heq, hhead]
      · intro j hj
        have := hbnd j (by omega)
        rw [hhead] at this
        exact this
    · refine ⟨k, by omega, ?_, ?_, ?_⟩
      · rw [hscan, heq]
        simp
      · intro j hj
        exact hbnd j (by omega)
      · intro j hj
        exact hfirst j hj
  rcases hmain with ⟨gstar, hg, hsceq, hbnd, hfirst⟩
  have hpair1 : (pairAt gstar).1 * ((pairAt gstar).1 + 1) / 2 + (pairAt gstar).2 = gstar :=
    pairAt_flat gstar
  have hattain : (vC.map (fun x => -x)).getD gstar 0 = gtMaxOf (vC.map (fun x => -x)) := by
    rw [gtMaxOf, hsceq]
  refine ⟨gstar, (pairAt gstar).1, (pairAt gstar).2, ?_, by omega, pairAt_snd_le gstar,
    hg, hattain, ?_, ?_, ?_, ?_, ?_⟩
  · rw [gtPairOf, hsceq]
  · intro j hj
    rw [← hattain]
    exact hbnd j hj
  · intro j hj
    rw [← hattain]
    exact hfirst j hj
  · intro j hj
    rw [plListOf]
    rw [getD_map_of_lt _ _ _ _ 0 (by omega)]
    congr 1
    rw [← hattain]
    rw [getD_map_of_lt _ _ _ _ 0 (by omega), getD_map_of_lt _ _ _ _ 0 (by omega)]
    ring
  · intro j hj
    rw [plListOf, getD_map_of_lt _ _ _ _ 0 (by omega)]
    apply plInt_bounds
    have := hbnd j hj
    rw [hattain] at this
    linarith
  · rw [plListOf, getD_map_of_lt _ _ _ _ 0 (by omega)]
    rw [hattain, sub_self]
    exact plInt_zero

/-! ### Concrete inputs for the witnesses -/

/-- A concrete read info: two alleles, alignment scores 50 and 100. -/
def vaiC5 : varAlignInfo := ⟨"read1", 0, 0, 2, [50, 100], false, true, true⟩

/-- Options used by the ad-model witness. -/
def optC5 : LRCOptions := ⟨false, 10, 100, 10, 1, 1000, 3, 1/2, 2, 1/10, 5, genotyping_model.ad⟩

/-- A concrete read info for the va model: 5 deleted bases, aligns both sides. -/
def vaiC4 : varAlignInfo := ⟨"read2", 5, 0, 2, [NO_ALIGNMENT, NO_ALIGNMENT], false, true, true⟩

/-- Options used by the va-model witness. -/
def optC4 : LRCOptions := ⟨false, 10, 100, 10, 1, 1000, 3, 1/2, 2, 1/10, 5, genotyping_model.va⟩

/-- Witness for claim C5 at a concrete input: the hypotheses hold and the
theorem applies. -/
theorem claim_C5_witness :
    vaiC5.alignS.length = vaiC5.nAlleles ∧ 0 < vaiC5.nAlleles ∧
    ([(0 : ℚ), 0] : List ℚ).length = vaiC5.nAlleles ∧
    (∃ M : Int,
      (∃ j, j < vaiC5.nAlleles ∧ vaiC5.alignS.getD j 0 = M) ∧
      (∀ j, j < vaiC5.nAlleles → vaiC5.alignS.getD j 0 ≤ M) ∧
      ((M = NO_ALIGNMENT ∨ M ≤ ((6 * 10) / 5 : Nat)) →
        alignmentPreference vaiC5 10 optC5 [(0 : ℚ), 0] = (none, [(0 : ℚ), 0])) ∧
      (¬(M = NO_ALIGNMENT ∨ M ≤ ((6 * 10) / 5 : Nat)) →
        (∃ i, (alignmentPreference vaiC5 10 optC5 [(0 : ℚ), 0]).1 = some i ∧
           i < vaiC5.nAlleles ∧ vaiC5.alignS.getD i 0 = M) ∧
        (alignmentPreference vaiC5 10 optC5 [(0 : ℚ), 0]).2.length =
          ([(0 : ℚ), 0] : List ℚ).length ∧
        (∀ i, i < vaiC5.nAlleles →
          (alignmentPreference vaiC5 10 optC5 [(0 : ℚ), 0]).2.getD i 0 =
            ([(0 : ℚ), 0] : List ℚ).getD i 0 +
              min (((M : ℚ) -
                   (if vaiC5.alignS.getD i 0 = NO_ALIGNMENT ∨
                       vaiC5.alignS.getD i 0 ≤ ((6 * 10) / 5 : Nat)
                    then ((((6 * 10) / 5 : Nat) : Int) : ℚ)
                    else ((vaiC5.alignS.getD i 0 : Int) : ℚ))) / optC5.logScaleFactor)
                optC5.maxAlignBits))) :=
  ⟨by decide, by decide, by decide,
    claim_C5_alignmentPreference vaiC5 10 optC5 [0, 0] (by decide) (by decide) (by decide)⟩

/-- Witness for claim C4 at a concrete input: the hypotheses hold and the
theorem applies. -/
theorem claim_C4_witness :
    vaiC4.nAlleles = ([1] : List Nat).length + 1 ∧
    ([(0 : ℚ), 0] : List ℚ).length = vaiC4.nAlleles ∧
    ((vaiC4.softClipped →
      (vaPreference vaiC4 optC4 6 [1] [(0 : ℚ), 0]).1 = none ∧
      (vaPreference vaiC4 optC4 6 [1] [(0 : ℚ), 0]).2.getD 0 0 =
        ([(0 : ℚ), 0] : List ℚ).getD 0 0 + optC4.overlapBits ∧
      (∀ i, 0 < i → (vaPreference vaiC4 optC4 6 [1] [(0 : ℚ), 0]).2.getD i 0 =
        ([(0 : ℚ), 0] : List ℚ).getD i 0) ∧
      (vaPreference vaiC4 optC4 6 [1] [(0 : ℚ), 0]).2.length =
        ([(0 : ℚ), 0] : List ℚ).length)
    ∧ (¬vaiC4.softClipped → ¬(vaiC4.alignsLeft ∧ vaiC4.alignsRight) →
        vaPreference vaiC4 optC4 6 [1] [(0 : ℚ), 0] = (none, [(0 : ℚ), 0]))
    ∧ (¬vaiC4.softClipped → vaiC4.alignsLeft → vaiC4.alignsRight →
        (∃ istar,
          (vaPreference vaiC4 optC4 6 [1] [(0 : ℚ), 0]).1 = some istar ∧
          istar < vaiC4.nAlleles ∧
          (∀ j, j < vaiC4.nAlleles →
            |(if istar = 0 then 0 else (([1] : List Nat).getD (istar - 1) 0 : Int) - ((6 : Nat) : Int)) -
               ((vaiC4.nI : Int) - (vaiC4.nD : Int))| ≤
            |(if j = 0 then 0 else (([1] : List Nat).getD (j - 1) 0 : Int) - ((6 : Nat) : Int)) -
               ((vaiC4.nI : Int) - (vaiC4.nD : Int))|) ∧
          (∀ j, j < istar →
            |(if istar = 0 then 0 else (([1] : List Nat).getD (istar - 1) 0 : Int) - ((6 : Nat) : Int)) -
               ((vaiC4.nI : Int) - (vaiC4.nD : Int))| <
            |(if j = 0 then 0 else (([1] : List Nat).getD (j - 1) 0 : Int) - ((6 : Nat) : Int)) -
               ((vaiC4.nI : Int) - (vaiC4.nD : Int))|) ∧
          (vaPreference vaiC4 optC4 6 [1] [(0 : ℚ), 0]).2.length =
            ([(0 : ℚ), 0] : List ℚ).length ∧
          (vaPreference vaiC4 optC4 6 [1] [(0 : ℚ), 0]).2.getD istar 0 =
            ([(0 : ℚ), 0] : List ℚ).getD istar 0 ∧
          (∀ j, j < vaiC4.nAlleles → j ≠ istar →
            (vaPreference vaiC4 optC4 6 [1] [(0 : ℚ), 0]).2.getD j 0 =
              ([(0 : ℚ), 0] : List ℚ).getD j 0 + optC4.overlapBits)))) :=
  ⟨by decide, by decide,
    claim_C4_vaPreference vaiC4 optC4 6 [1] [0, 0] (by decide) (by decide)⟩

/-- Witness for claim C3 at a concrete input: the hypotheses hold and the
theorem applies. -/
theorem claim_C3_witness :
    ([(1 : ℚ), 0, 3] : List ℚ) ≠ [] ∧
    (∃ g a1 a2,
      gtPairOf (([(1 : ℚ), 0, 3] : List ℚ).map (fun x => -x)) = (a1, a2) ∧
      g = a1 * (a1 + 1) / 2 + a2 ∧ a2 ≤ a1 ∧ g < ([(1 : ℚ), 0, 3] : List ℚ).length ∧
      (([(1 : ℚ), 0, 3] : List ℚ).map (fun x => -x)).getD g 0 =
        gtMaxOf (([(1 : ℚ), 0, 3] : List ℚ).map (fun x => -x)) ∧
      (∀ j, j < ([(1 : ℚ), 0, 3] : List ℚ).length →
        (([(1 : ℚ), 0, 3] : List ℚ).map (fun x => -x)).getD j 0 ≤
          gtMaxOf (([(1 : ℚ), 0, 3] : List ℚ).map (fun x => -x))) ∧
      (∀ j, j < g →
        (([(1 : ℚ), 0, 3] : List ℚ).map (fun x => -x)).getD j 0 <
          gtMaxOf (([(1 : ℚ), 0, 3] : List ℚ).map (fun x => -x))) ∧
      (∀ j, j < ([(1 : ℚ), 0, 3] : List ℚ).length →
        (plListOf (([(1 : ℚ), 0, 3] : List ℚ).map (fun x => -x))).getD j 0 =
          plInt (([(1 : ℚ), 0, 3] : List ℚ).getD g 0 - ([(1 : ℚ), 0, 3] : List ℚ).getD j 0)) ∧
      (∀ j, j < ([(1 : ℚ), 0, 3] : List ℚ).length →
        0 ≤ (plListOf (([(1 : ℚ), 0, 3] : List ℚ).map (fun x => -x))).getD j 0 ∧
        (plListOf (([(1 : ℚ), 0, 3] : List ℚ).map (fun x => -x))).getD j 0 ≤ 255) ∧
      (plListOf (([(1 : ℚ), 0, 3] : List ℚ).map (fun x => -x))).getD g 0 = 0) :=
  ⟨by simp, claim_C3_getGtString [1, 0, 3] (by simp)⟩

/-! ### multiUpdateVC (per-variant aggregation) -/

/-- Embeds varAlignInfo::supports (src/algo.hpp:58-74). -/
def supports (vai : varAlignInfo) (refLen altLen : Nat) (O : LRCOptions) : Bool :=
  if refLen < altLen then
    decide ((vai.alignsLeft ∧ vai.alignsRight ∧
      (vai.nI : ℚ) > (altLen : ℚ) * O.altThreshFraction ∧
      (vai.nI : ℚ) < (altLen : ℚ) * O.altThreshFractionMax) ∨ vai.softClipped)
  else
    decide ((vai.alignsLeft ∧ vai.alignsRight ∧
      (vai.nD : ℚ) > (refLen : ℚ) * O.altThreshFraction ∧
      (vai.nD : ℚ) < (refLen : ℚ) * O.altThreshFractionMax) ∨ vai.softClipped)

/-- Embeds varAlignInfo::rejects (src/algo.hpp:77-87). -/
def rejects (vai : varAlignInfo) (refLen altLen : Nat) (O : LRCOptions) : Bool :=
  if refLen < altLen then
    decide ((vai.alignsLeft ∧ vai.alignsRight ∧
      (vai.nI : ℚ) < (altLen : ℚ) * O.refThreshFraction) ∧ ¬vai.softClipped)
  else
    decide ((vai.alignsLeft ∧ vai.alignsRight ∧
      (vai.nD : ℚ) < (refLen : ℚ) * O.refThreshFraction) ∧ ¬vai.softClipped)

/-- Embeds varAlignInfo::present (src/algo.hpp:89-92). -/
def present (vai : varAlignInfo) (O : LRCOptions) : Bool :=
  decide (O.minPresent ≤ vai.nI ∨ O.minPresent ≤ vai.nD)

/-- The cScore of one alternate in the va_old loop (src/algo.hpp:344-348). -/
def vaOldScore (vai : varAlignInfo) (refLen altLen : Nat) (O : LRCOptions) : ℚ :=
  O.overlapBits * ((if rejects vai refLen altLen O then 1 else 0) -
    (if supports vai refLen altLen O then 1 else 0))

/-- The prefs update of the va_old model: prefs[iP+1] += cScore(iP). -/
def vaOldPrefs (vai : varAlignInfo) (O : LRCOptions) (refLen : Nat)
    (altLens : List Nat) (prefs : List ℚ) : List ℚ :=
  updIdx (fun i p =>
    if 1 ≤ i ∧ i ≤ altLens.length
    then p + vaOldScore vai refLen (altLens.getD (i - 1) 0) O else p) 0 prefs

/-- The bestI tracking of the va_old loop: bestScore starts at 0 with
bestI = 0, updated on strict decrease at index iP+1. -/
def vaOldBest (vai : varAlignInfo) (O : LRCOptions) (refLen : Nat)
    (altLens : List Nat) : Nat :=
  (firstMinFrom (altLens.map (fun al => vaOldScore vai refLen al O)) 0 1 0).2

/-- The prefs update of the presence model (src/algo.hpp:363-377):
prefs[0] += overlapBits when present else prefs[1] += overlapBits,
and prefs[iP] += overlapBits for all 2 ≤ iP ≤ nAlts. -/
def presencePrefs (vai : varAlignInfo) (O : LRCOptions) (nAlts : Nat)
    (prefs : List ℚ) : List ℚ :=
  updIdx (fun i p =>
    if (present vai O ∧ i = 0) ∨ (¬present vai O ∧ i = 1) ∨ (2 ≤ i ∧ i ≤ nAlts)
    then p + O.overlapBits else p) 0 prefs

/-- min-scan over a preference vector (float minPref of src/algo.hpp:384-389;
the vector is always nonempty, the [] case is arbitrary). -/
def listMin : List ℚ → ℚ
  | [] => 0
  | x :: xs => xs.foldl min x

/-- max-scan over a preference vector. -/
def listMax : List ℚ → ℚ
  | [] => 0
  | x :: xs => xs.foldl max x

/-- The vC contribution of one read for genotype (a1, a2) over (normalized)
preferences: the branch table of src/algo.hpp:400-429.  Configurations
matching none of the four heterozygous branches contribute 0. -/
def contribPair (prefs : List ℚ) (a1 a2 : Nat) : ℚ :=
  let p1 := prefs.getD a1 0
  let p2 := prefs.getD a2 0
  if a1 ≠ a2 then
    if p1 = p2 then p1
    else if p1 > p2 + 2 then p2 + 1
    else if p2 > p1 + 2 then p1 + 1
    else if p1 > p2 then (p1 + p2) / 2
    else 0
  else p1

/-- The vCI-ordered flat list of per-genotype contributions: a1 from 0 to
n-1, a2 from 0 to a1, exactly the nested loop of src/algo.hpp:401-429. -/
def contribFlat (prefs : List ℚ) (n : Nat) : List ℚ :=
  ((List.range n).map (fun a1 =>
    (List.range (a1 + 1)).map (fun a2 => contribPair prefs a1 a2))).flatten

/-- Triangular number n·(n+1)/2 (the flat genotype vector length). -/
def triN (n : Nat) : Nat := n * (n + 1) / 2

/-- One read's update of the genotype likelihood vector vC
(src/algo.hpp:384-431): normalize prefs by the minimum, and if the spread
exceeds MINIMUM_PREF_DIFF = 2.0 add the contribution table entries. -/
def readVCUpdate (prefs : List ℚ) (vC : List ℚ) : List ℚ :=
  let minPref := listMin prefs
  let maxPref := listMax prefs
  let normed := prefs.map (fun p => p - minPref)
  if maxPref - minPref > 2 then
    List.zipWith (fun a b => a + b) vC (contribFlat normed prefs.length)
  else vC

/-- The preference vector accumulated for one read by multiUpdateVC under a
given model (src/algo.hpp:313-377): ad and joint apply alignmentPreference,
va and joint apply vaPreference, va_old and presence their updates. -/
def prefsOf (O : LRCOptions) (gtm : genotyping_model) (wSizeActual : Nat)
    (refLen : Nat) (altLens : List Nat) (vai : varAlignInfo) : List ℚ :=
  let p0 : List ℚ := List.replicate (altLens.length + 1) 0
  let p1 := if gtm = genotyping_model.ad ∨ gtm = genotyping_model.joint
    then (alignmentPreference vai wSizeActual O p0).2 else p0
  let p2 := if gtm = genotyping_model.va ∨ gtm = genotyping_model.joint
    then (vaPreference vai O refLen altLens p1).2 else p1
  let p3 := if gtm = genotyping_model.va_old
    then vaOldPrefs vai O refLen altLens p2 else p2
  if gtm = genotyping_model.presence
    then presencePrefs vai O altLens.length p3 else p3

/-- The per-variant aggregation state: genotype likelihoods vC, allele depth
counters AD (rI), variant-alignment counters VA, and the VA qname strings. -/
structure MUVState where
  vC : List ℚ
  AD : List Nat
  VA : List Nat
  VAq : List String
deriving DecidableEq, Repr

/-- The state sizing of processChunk (src/algo.hpp:1212-1218) for nAlleles
alleles: vC has nAlleles·(nAlleles+1)/2 slots, the counters nAlleles+1. -/
def initMUVState (nAlleles : Nat) : MUVState :=
  ⟨List.replicate (nAlleles * (nAlleles + 1) / 2) 0,
    List.replicate (nAlleles + 1) 0,
    List.replicate (nAlleles + 1) 0,
    List.replicate (nAlleles + 1) ""⟩

/-- The body of the read loop of multiUpdateVC (src/algo.hpp:311-431) for one
varAlignInfo: update AD under ad/joint (per-allele slot only on a best, the
total slot rI[rI.size()-1] unconditionally), update VA and the qname strings
under va/joint and va_old, then fold the read's preferences into vC. -/
def muvStep (O : LRCOptions) (gtm : genotyping_model) (wSizeActual : Nat)
    (refLen : Nat) (altLens : List Nat) (st : MUVState) (vai : varAlignInfo) :
    MUVState :=
  let p0 : List ℚ := List.replicate (altLens.length + 1) 0
  let AD2 :=
    if gtm = genotyping_model.ad ∨ gtm = genotyping_model.joint then
      let ad1 := match (alignmentPreference vai wSizeActual O p0).1 with
        | some i => bumpCount st.AD i
        | none => st.AD
      bumpCount ad1 (st.AD.length - 1)
    else st.AD
  let p1 := if gtm = genotyping_model.ad ∨ gtm = genotyping_model.joint
    then (alignmentPreference vai wSizeActual O p0).2 else p0
  let VA2q :=
    if gtm = genotyping_model.va ∨ gtm = genotyping_model.joint then
      match (vaPreference vai O refLen altLens p1).1 with
      | some i => (bumpCount st.VA i, st.VAq.set i (st.VAq.getD i "" ++ "," ++ vai.qname))
      | none => (st.VA, st.VAq)
    else (st.VA, st.VAq)
  let VA3 := if gtm = genotyping_model.va ∨ gtm = genotyping_model.joint
    then bumpCount VA2q.1 (st.VA.length - 1) else VA2q.1
  let VA4 := if gtm = genotyping_model.va_old
    then bumpCount (bumpCount VA3 (vaOldBest vai O refLen altLens)) (st.VA.length - 1)
    else VA3
  { vC := readVCUpdate (prefsOf O gtm wSizeActual refLen altLens vai) st.vC,
    AD := AD2, VA := VA4, VAq := VA2q.2 }

/-- Embeds multiUpdateVC (src/algo.hpp:288-436): fold the read loop over all
varAlignInfo records of the variant. -/
def multiUpdateVC (O : LRCOptions) (gtm : genotyping_model) (wSizeActual : Nat)
    (var : VcfRecord) (vais : List varAlignInfo) (st : MUVState) : MUVState :=
  vais.foldl (muvStep O gtm wSizeActual var.ref.length (var.alt.map List.length)) st

theorem contribFlat_succ (prefs : List ℚ) (n : Nat) :
    contribFlat prefs (n + 1) =
      contribFlat prefs n ++ (List.range (n + 1)).map (fun a2 => contribPair prefs n a2) := by
  unfold contribFlat
  rw [List.range_succ, List.map_append, List.flatten_append]
  congr 1
  simp only [List.map_cons, List.map_nil, List.flatten_cons, List.flatten_nil,
    List.append_nil]
  rw [List.range_succ]

theorem triN_succ (n : Nat) : triN (n + 1) = triN n + (n + 1) := by
  show (n + 1) * (n + 2) / 2 = n * (n + 1) / 2 + (n + 1)
  exact tri_succ n

theorem triN_mono {m n : Nat} (h : m ≤ n) : triN m ≤ triN n :=
  Nat.div_le_div_right (Nat.mul_le_mul h (by omega))

theorem length_contribFlat (prefs : List ℚ) (n : Nat) :
    (contribFlat prefs n).length = triN n := by
  induction n with
  | zero => rfl
  | succ n ih =>
    rw [contribFlat_succ, List.length_append, ih, List.length_map, List.length_range,
      triN_succ]

theorem contribFlat_getD (prefs : List ℚ) (n a1 a2 : Nat) (h2 : a2 ≤ a1)
    (h1 : a1 < n) (d : ℚ) :
    (contribFlat prefs n).getD (triN a1 + a2) d = contribPair prefs a1 a2 := by
  induction n with
  | zero => omega
  | succ n ih =>
    rw [contribFlat_succ]
    by_cases hcase : a1 < n
    · rw [List.getD_append _ _ _ _ ?_]
      · exact ih hcase
      · rw [length_contribFlat]
        have hstep : triN a1 + a2 < triN (a1 + 1) := by
          rw [triN_succ]; omega
        exact lt_of_lt_of_le hstep (triN_mono (by omega))
    · have ha : a1 = n := by omega
      subst ha
      rw [List.getD_append_right _ _ _ _ (by rw [length_contribFlat]; omega)]
      rw [length_contribFlat]
      have hidx : triN a1 + a2 - triN a1 = a2 := by omega
      rw [hidx]
      rw [getD_map_of_lt _ _ _ _ 0 (by simpa using by omega)]
      congr 1
      rw [List.getD_eq_getElem?_getD,
        List.getElem?_eq_getElem (by simpa using by omega)]
      simp [List.getElem_range]

theorem getD_zipWith_add (v c : List ℚ) (j : Nat) (h1 : j < v.length)
    (h2 : j < c.length) :
    (List.zipWith (fun a b => a + b) v c).getD j 0 = v.getD j 0 + c.getD j 0 := by
  have hlen : j < (List.zipWith (fun a b : ℚ => a + b) v c).length := by
    rw [List.length_zipWith]; omega
  rw [List.getD_eq_getElem?_getD, List.getElem?_eq_getElem hlen]
  rw [List.getElem_zipWith]
  simp [List.getD_eq_getElem?_getD, List.getElem?_eq_getElem h1,
    List.getElem?_eq_getElem h2]

/-- Claim C10: for a read passing the informativeness test and a heterozygous
genotype g = a1·(a1+1)/2 + a2 with a2 < a1 whose normalized preferences
satisfy 0 < prefs[a2] − prefs[a1] ≤ 2, the per-read vC update leaves vC[g]
unchanged: the configuration matches none of the contribution branches. -/
theorem claim_C10_hetGapFrame (prefs vC : List ℚ) (a1 a2 : Nat)
    (ha : a2 < a1) (h1 : a1 < prefs.length)
    (hlen : triN prefs.length ≤ vC.length)
    (hinf : listMax prefs - listMin prefs > 2)
    (hd1 : 0 < (prefs.getD a2 0 - listMin prefs) - (prefs.getD a1 0 - listMin prefs))
    (hd2 : (prefs.getD a2 0 - listMin prefs) - (prefs.getD a1 0 - listMin prefs) ≤ 2) :
    (readVCUpdate prefs vC).getD (a1 * (a1 + 1) / 2 + a2) 0 =
      vC.getD (a1 * (a1 + 1) / 2 + a2) 0 := by
  have hg : a1 * (a1 + 1) / 2 + a2 = triN a1 + a2 := rfl
  have hgb : triN a1 + a2 < triN prefs.length := by
    have hstep : triN a1 + a2 < triN (a1 + 1) := by rw [triN_succ]; omega
    exact lt_of_lt_of_le hstep (triN_mono (by omega))
  simp only [readVCUpdate]
  rw [if_pos hinf, hg]
  rw [getD_zipWith_add _ _ _ (by omega) (by rw [length_contribFlat]; exact hgb)]
  have hmap1 : (prefs.map (fun p => p - listMin prefs)).getD a1 0 =
      prefs.getD a1 0 - listMin prefs := getD_map_of_lt _ _ _ _ 0 (by omega)
  have hmap2 : (prefs.map (fun p => p - listMin prefs)).getD a2 0 =
      prefs.getD a2 0 - listMin prefs := getD_map_of_lt _ _ _ _ 0 (by omega)
  have hflat : (contribFlat (prefs.map (fun p => p - listMin prefs)) prefs.length).getD
      (triN a1 + a2) 0 = contribPair (prefs.map (fun p => p - listMin prefs)) a1 a2 := by
    exact contribFlat_getD (prefs.map (fun p => p - listMin prefs)) prefs.length
      a1 a2 (by omega) h1 0
  rw [hflat]
  have hzero : contribPair (prefs.map (fun p => p - listMin prefs)) a1 a2 = 0 := by
    simp only [contribPair]
    rw [hmap1, hmap2]
    rw [if_pos (by omega : a1 ≠ a2)]
    rw [if_neg (by intro hcon; rw [hcon] at hd1; linarith)]
    rw [if_neg (by intro hcon; linarith)]
    rw [if_neg (by intro hcon; linarith)]
    rw [if_neg (by intro hcon; linarith)]
  rw [hzero, add_zero]

/-- Witness for claim C10 at a concrete input. -/
theorem claim_C10_witness :
    ((1 : Nat) < 2 ∧ 2 < ([(0 : ℚ), 3, 2] : List ℚ).length ∧
      triN ([(0 : ℚ), 3, 2] : List ℚ).length ≤
        ([(0 : ℚ), 0, 0, 0, 0, 0] : List ℚ).length ∧
      listMax [(0 : ℚ), 3, 2] - listMin [(0 : ℚ), 3, 2] > 2 ∧
      0 < (([(0 : ℚ), 3, 2] : List ℚ).getD 1 0 - listMin [(0 : ℚ), 3, 2]) -
        (([(0 : ℚ), 3, 2] : List ℚ).getD 2 0 - listMin [(0 : ℚ), 3, 2]) ∧
      (([(0 : ℚ), 3, 2] : List ℚ).getD 1 0 - listMin [(0 : ℚ), 3, 2]) -
        (([(0 : ℚ), 3, 2] : List ℚ).getD 2 0 - listMin [(0 : ℚ), 3, 2]) ≤ 2) ∧
    (readVCUpdate [(0 : ℚ), 3, 2] [(0 : ℚ), 0, 0, 0, 0, 0]).getD (2 * (2 + 1) / 2 + 1) 0 =
      ([(0 : ℚ), 0, 0, 0, 0, 0] : List ℚ).getD (2 * (2 + 1) / 2 + 1) 0 := by
  have hmax : listMax [(0 : ℚ), 3, 2] = 3 := by
    norm_num [listMax, List.foldl, max_def]
  have hmin : listMin [(0 : ℚ), 3, 2] = 0 := by
    norm_num [listMin, List.foldl, min_def]
  have h1 : (0 : ℚ) < (3 - 0) - (2 - 0) := by norm_num
  have h2 : ((3 : ℚ) - 0) - (2 - 0) ≤ 2 := by norm_num
  refine ⟨⟨by norm_num, by norm_num, by norm_num [triN], ?_, ?_, ?_⟩, ?_⟩
  · rw [hmax, hmin]; norm_num
  · rw [hmin]; norm_num
  · rw [hmin]; norm_num
  · exact claim_C10_hetGapFrame [0, 3, 2] [0, 0, 0, 0, 0, 0] 2 1
      (by norm_num) (by norm_num) (by norm_num [triN])
      (by rw [hmax, hmin]; norm_num)
      (by rw [hmin]; norm_num) (by rw [hmin]; norm_num)

theorem alignmentPreference_some_lt (vai : varAlignInfo) (w : Nat) (O : LRCOptions)
    (p : List ℚ) (i : Nat)
    (h : (alignmentPreference vai w O p).1 = some i) : i < vai.alignS.length := by
  rcases firstMaxFrom_spec vai.alignS (vai.alignS.headD 0) 0 0 0 with
    ⟨heq, _⟩ | ⟨k, hk, heq, _, _, _⟩
  · simp only [alignmentPreference, heq] at h
    by_cases hgate : vai.alignS.headD 0 = NO_ALIGNMENT ∨
        vai.alignS.headD 0 ≤ (((6 * w) / 5 : Nat) : Int)
    · rw [if_pos hgate] at h
      simp at h
    · rw [if_neg hgate] at h
      simp at h
      by_cases hnil : vai.alignS = []
      · exfalso
        apply hgate
        right
        rw [hnil]
        simpa using Int.natCast_nonneg ((6 * w) / 5)
      · have := List.length_pos.mpr hnil
        omega
  · simp only [alignmentPreference, heq] at h
    by_cases hgate : vai.alignS.getD k 0 = NO_ALIGNMENT ∨
        vai.alignS.getD k 0 ≤ (((6 * w) / 5 : Nat) : Int)
    · rw [if_pos hgate] at h
      simp at h
    · rw [if_neg hgate] at h
      simp at h
      omega

theorem sum_range_bumpCount_lt (l : List Nat) (i n : Nat) (hi : i < n)
    (hn : n ≤ l.length) :
    ∑ j in Finset.range n, (bumpCount l i).getD j 0 =
      (∑ j in Finset.range n, l.getD j 0) + 1 := by
  have hupd : ∀ j, (bumpCount l i).getD j 0 =
      Function.update (fun j => l.getD j 0) i (l.getD i 0 + 1) j := by
    intro j
    rw [Function.update_apply]
    by_cases h : j = i
    · subst h
      rw [if_pos rfl, bumpCount]
      exact getD_set_self l j _ 0 (by omega)
    · rw [bumpCount, getD_set_ne l i j _ 0 (fun hh => h hh.symm), if_neg h]
  rw [Finset.sum_congr rfl (fun j _ => hupd j)]
  rw [Finset.sum_update_of_mem (Finset.mem_range.mpr hi)]
  rw [Finset.sum_eq_sum_diff_singleton_add (Finset.mem_range.mpr hi)
    (fun j => l.getD j 0)]
  omega

theorem sum_range_bumpCount_ge (l : List Nat) (i n : Nat) (hi : n ≤ i) :
    ∑ j in Finset.range n, (bumpCount l i).getD j 0 =
      ∑ j in Finset.range n, l.getD j 0 := by
  refine Finset.sum_congr rfl (fun j hj => ?_)
  have hj2 := Finset.mem_range.mp hj
  exact getD_set_ne l i j _ 0 (by omega)

theorem countP_isSome_add_isNone (l : List varAlignInfo) (f : varAlignInfo → Option Nat) :
    l.countP (fun v => (f v).isSome) + l.countP (fun v => (f v).isNone) = l.length := by
  induction l with
  | nil => rfl
  | cons v l ih =>
    cases hf : f v <;> simp [List.countP_cons, hf, ← ih] <;> omega

theorem muvStep_AD (O : LRCOptions) (gtm : genotyping_model) (w : Nat)
    (refLen : Nat) (altLens : List Nat) (st : MUVState) (vai : varAlignInfo)
    (hg : gtm = genotyping_model.ad ∨ gtm = genotyping_model.joint) :
    (muvStep O gtm w refLen altLens st vai).AD =
      bumpCount
        (match (alignmentPreference vai w O (List.replicate (altLens.length + 1) 0)).1 with
          | some i => bumpCount st.AD i
          | none => st.AD) (st.AD.length - 1) := by
  rcases hg with hg | hg <;> subst hg <;> rfl

/-- The AD bookkeeping invariant of the read loop under ad/joint. -/
theorem adFold_inv (O : LRCOptions) (gtm : genotyping_model) (w : Nat)
    (refLen : Nat) (altLens : List Nat)
    (hg : gtm = genotyping_model.ad ∨ gtm = genotyping_model.joint) :
    ∀ (vais : List varAlignInfo) (st : MUVState),
      st.AD.length = altLens.length + 2 →
      (∀ vai ∈ vais, vai.alignS.length = altLens.length + 1) →
      ((vais.foldl (muvStep O gtm w refLen altLens) st).AD.length = altLens.length + 2 ∧
       (vais.foldl (muvStep O gtm w refLen altLens) st).AD.getD (altLens.length + 1) 0 =
         st.AD.getD (altLens.length + 1) 0 + vais.length ∧
       (∑ i in Finset.range (altLens.length + 1),
         (vais.foldl (muvStep O gtm w refLen altLens) st).AD.getD i 0) =
         (∑ i in Finset.range (altLens.length + 1), st.AD.getD i 0) +
           vais.countP (fun vai =>
             (alignmentPreference vai w O (List.replicate (altLens.length + 1) 0)).1.isSome)) := by
  intro vais
  induction vais with
  | nil =>
    intro st hlen _
    refine ⟨hlen, by simp, by simp [List.countP_nil]⟩
  | cons vai vais ih =>
    intro st hlen hvai
    have hva1 : vai.alignS.length = altLens.length + 1 := hvai vai (by simp)
    have hAD : (muvStep O gtm w refLen altLens st vai).AD =
        bumpCount
          (match (alignmentPreference vai w O (List.replicate (altLens.length + 1) 0)).1 with
            | some i => bumpCount st.AD i
            | none => st.AD) (st.AD.length - 1) :=
      muvStep_AD O gtm w refLen altLens st vai hg
    -- facts about the one-read AD update
    have hlen1 : (muvStep O gtm w refLen altLens st vai).AD.length = altLens.length + 2 := by
      rw [hAD]
      cases hbest : (alignmentPreference vai w O (List.replicate (altLens.length + 1) 0)).1 with
      | none => simpa [bumpCount] using hlen
      | some i => simpa [bumpCount] using hlen
    have h21 : altLens.length + 2 - 1 = altLens.length + 1 := by omega
    have hlast1 : (muvStep O gtm w refLen altLens st vai).AD.getD (altLens.length + 1) 0 =
        st.AD.getD (altLens.length + 1) 0 + 1 := by
      cases hbest : (alignmentPreference vai w O (List.replicate (altLens.length + 1) 0)).1 with
      | none =>
        have hAD2 : (muvStep O gtm w refLen altLens st vai).AD =
            bumpCount st.AD (st.AD.length - 1) := by rw [hAD, hbest]
        rw [hAD2, hlen, h21, bumpCount]
        exact getD_set_self st.AD (altLens.length + 1) _ 0 (by omega)
      | some i =>
        have hilt : i < altLens.length + 1 := by
          have := alignmentPreference_some_lt vai w O _ i hbest
          omega
        have hAD2 : (muvStep O gtm w refLen altLens st vai).AD =
            bumpCount (bumpCount st.AD i) (st.AD.length - 1) := by rw [hAD, hbest]
        rw [hAD2, hlen, h21]
        rw [show bumpCount (bumpCount st.AD i) (altLens.length + 1) =
          (bumpCount st.AD i).set (altLens.length + 1)
            ((bumpCount st.AD i).getD (altLens.length + 1) 0 + 1) from rfl]
        rw [getD_set_self (bumpCount st.AD i) (altLens.length + 1) _ 0
          (by rw [bumpCount, List.length_set]; omega)]
        rw [bumpCount, getD_set_ne st.AD i (altLens.length + 1) _ 0 (by omega)]
    have hsum1 : (∑ j in Finset.range (altLens.length + 1),
        (muvStep O gtm w refLen altLens st vai).AD.getD j 0) =
        (∑ j in Finset.range (altLens.length + 1), st.AD.getD j 0) +
          (if (alignmentPreference vai w O (List.replicate (altLens.length + 1) 0)).1.isSome
            then 1 else 0) := by
      cases hbest : (alignmentPreference vai w O (List.replicate (altLens.length + 1) 0)).1 with
      | none =>
        have hAD2 : (muvStep O gtm w refLen altLens st vai).AD =
            bumpCount st.AD (st.AD.length - 1) := by rw [hAD, hbest]
        rw [hAD2, hlen, h21, sum_range_bumpCount_ge st.AD _ _ (by omega)]
        simp [hbest]
      | some i =>
        have hilt : i < altLens.length + 1 := by
          have := alignmentPreference_some_lt vai w O _ i hbest
          omega
        have hAD2 : (muvStep O gtm w refLen altLens st vai).AD =
            bumpCount (bumpCount st.AD i) (st.AD.length - 1) := by rw [hAD, hbest]
        rw [hAD2, hlen, h21, sum_range_bumpCount_ge _ _ _ (by omega)]
        rw [sum_range_bumpCount_lt st.AD i _ hilt (by omega)]
        simp [hbest]
    -- apply the induction hypothesis to the updated state
    rw [List.foldl_cons]
    rcases ih (muvStep O gtm w refLen altLens st vai) hlen1
      (fun v hv => hvai v (by simp [hv])) with ⟨ha, hb, hc⟩
    refine ⟨ha, ?_, ?_⟩
    · rw [hb, hlast1]
      simp only [List.length_cons]
      omega
    · rw [hc, hsum1, List.countP_cons]
      by_cases hs : (alignmentPreference vai w O
          (List.replicate (altLens.length + 1) 0)).1.isSome = true
      · rw [if_pos hs]
        omega
      · rw [if_neg hs]
        omega

/-- Claim C6: under the ad and joint models, after all reads of a variant are
processed from the zeroed counters, AD[nAlleles] equals the number of reads
with a reported best plus the number with no best, i.e. the unconditionally
incremented total slot equals the sum of the per-allele slots plus the
no-best count. -/
theorem claim_C6_adTotalCounter (O : LRCOptions) (gtm : genotyping_model)
    (wSize : Nat) (var : VcfRecord) (vais : List varAlignInfo)
    (hg : gtm = genotyping_model.ad ∨ gtm = genotyping_model.joint)
    (hvai : ∀ vai ∈ vais, vai.alignS.length = var.alt.length + 1) :
    (multiUpdateVC O gtm wSize var vais (initMUVState (var.alt.length + 1))).AD.getD
        (var.alt.length + 1) 0 =
      (∑ i in Finset.range (var.alt.length + 1),
        (multiUpdateVC O gtm wSize var vais (initMUVState (var.alt.length + 1))).AD.getD i 0) +
      vais.countP (fun vai =>
        (alignmentPreference vai wSize O
          (List.replicate (var.alt.length + 1) 0)).1.isNone) := by
  have hAL : (var.alt.map List.length).length = var.alt.length := by simp
  have hinit : (initMUVState (var.alt.length + 1)).AD.length =
      (var.alt.map List.length).length + 2 := by
    simp [initMUVState, hAL]
  rcases adFold_inv O gtm wSize var.ref.length (var.alt.map List.length) hg vais
      (initMUVState (var.alt.length + 1)) hinit
      (fun v hv => by rw [hAL]; exact hvai v hv) with ⟨_, hb, hc⟩
  rw [hAL] at hb hc
  have hzero : (initMUVState (var.alt.length + 1)).AD.getD (var.alt.length + 1) 0 = 0 :=
    getD_replicate _ _ _ _ (by omega)
  have hzsum : (∑ i in Finset.range (var.alt.length + 1),
      (initMUVState (var.alt.length + 1)).AD.getD i 0) = 0 := by
    refine Finset.sum_eq_zero (fun i hi => ?_)
    exact getD_replicate _ _ _ _ (by have := Finset.mem_range.mp hi; omega)
  have hmu : multiUpdateVC O gtm wSize var vais (initMUVState (var.alt.length + 1)) =
      List.foldl (muvStep O gtm wSize var.ref.length (var.alt.map List.length))
        (initMUVState (var.alt.length + 1)) vais := rfl
  rw [hmu, hb, hc, hzero, hzsum]
  have := countP_isSome_add_isNone vais (fun vai =>
    (alignmentPreference vai wSize O (List.replicate (var.alt.length + 1) 0)).1)
  have hco : vais.countP (fun v =>
      (alignmentPreference v wSize O (List.replicate (var.alt.length + 1) 0)).1.isNone) =
      vais.countP (fun v => !(alignmentPreference v wSize O
        (List.replicate (var.alt.length + 1) 0)).1.isSome) := by
    refine List.countP_congr (fun v _ => ?_)
    cases (alignmentPreference v wSize O (List.replicate (var.alt.length + 1) 0)).1 <;> simp
  rw [hco]
  omega

theorem muvStep_vC (O : LRCOptions) (gtm : genotyping_model) (w : Nat)
    (refLen : Nat) (altLens : List Nat) (st : MUVState) (vai : varAlignInfo) :
    (muvStep O gtm w refLen altLens st vai).vC =
      readVCUpdate (prefsOf O gtm w refLen altLens vai) st.vC := rfl

theorem foldVC_const (O : LRCOptions) (gtm : genotyping_model) (w : Nat)
    (refLen : Nat) (altLens : List Nat) :
    ∀ (vais : List varAlignInfo) (st : MUVState),
      (∀ vai ∈ vais, listMax (prefsOf O gtm w refLen altLens vai) -
        listMin (prefsOf O gtm w refLen altLens vai) ≤ 2) →
      (vais.foldl (muvStep O gtm w refLen altLens) st).vC = st.vC := by
  intro vais
  induction vais with
  | nil => intro st _; rfl
  | cons vai vais ih =>
    intro st hsp
    rw [List.foldl_cons, ih _ (fun v hv => hsp v (List.mem_cons_of_mem _ hv))]
    rw [muvStep_vC]
    simp only [readVCUpdate]
    rw [if_neg (not_lt.mpr (hsp vai (List.mem_cons_self _ _)))]

theorem gtScanGo_zeros (k : Nat) : ∀ (a maxA : Nat × Nat),
    gtScanGo (List.replicate k (0 : ℚ)) 0 a maxA = (0, maxA) := by
  induction k with
  | zero => intro a maxA; rfl
  | succ k ih =>
    intro a maxA
    rw [List.replicate_succ]
    show gtScanGo (0 :: List.replicate k 0) 0 a maxA = (0, maxA)
    simp only [gtScanGo]
    rw [if_neg (lt_irrefl (0 : ℚ))]
    exact ih _ _

/-- Claim C7: if every read's model preference vector has spread at most
MINIMUM_PREF_DIFF = 2, no read contributes: vC stays all-zero and the
emitted record carries best genotype 0/0 with PL 0 at the first index. -/
theorem claim_C7_uninformative (O : LRCOptions) (gtm : genotyping_model)
    (wSize : Nat) (var : VcfRecord) (vais : List varAlignInfo)
    (hsp : ∀ vai ∈ vais,
      listMax (prefsOf O gtm wSize var.ref.length (var.alt.map List.length) vai) -
        listMin (prefsOf O gtm wSize var.ref.length (var.alt.map List.length) vai) ≤ 2) :
    (multiUpdateVC O gtm wSize var vais (initMUVState (var.alt.length + 1))).vC =
      List.replicate ((var.alt.length + 1) * (var.alt.length + 2) / 2) 0 ∧
    gtPairOf ((multiUpdateVC O gtm wSize var vais
      (initMUVState (var.alt.length + 1))).vC.map (fun x => -x)) = (0, 0) ∧
    (plListOf ((multiUpdateVC O gtm wSize var vais
      (initMUVState (var.alt.length + 1))).vC.map (fun x => -x))).getD 0 0 = 0 := by
  have h1 : (multiUpdateVC O gtm wSize var vais (initMUVState (var.alt.length + 1))).vC =
      List.replicate ((var.alt.length + 1) * (var.alt.length + 2) / 2) 0 :=
    foldVC_const O gtm wSize var.ref.length (var.alt.map List.length) vais
      (initMUVState (var.alt.length + 1)) hsp
  have hm : 0 < (var.alt.length + 1) * (var.alt.length + 2) / 2 := by
    have h2 : 2 ≤ (var.alt.length + 1) * (var.alt.length + 2) := by
      calc 2 = 1 * 2 := by omega
        _ ≤ (var.alt.length + 1) * (var.alt.length + 2) :=
          Nat.mul_le_mul (by omega) (by omega)
    have := Nat.div_le_div_right (c := 2) h2
    simpa using this
  have hneg : (List.replicate ((var.alt.length + 1) * (var.alt.length + 2) / 2) (0 : ℚ)).map
      (fun x => -x) = List.replicate ((var.alt.length + 1) * (var.alt.length + 2) / 2) 0 := by
    rw [List.map_replicate, neg_zero]
  have hhd : (List.replicate ((var.alt.length + 1) * (var.alt.length + 2) / 2) (0 : ℚ)).headD 0 = 0 := by
    rcases Nat.exists_eq_add_of_lt hm with ⟨k, hk⟩
    rw [show (var.alt.length + 1) * (var.alt.length + 2) / 2 = k + 1 by omega]
    rw [List.replicate_succ]
    rfl
  have hscan : gtScan (List.replicate ((var.alt.length + 1) * (var.alt.length + 2) / 2) (0 : ℚ)) =
      (0, (0, 0)) := by
    rw [gtScan, hhd]
    exact gtScanGo_zeros _ _ _
  refine ⟨h1, ?_, ?_⟩
  · rw [h1, hneg, gtPairOf, hscan]
  · rw [h1, hneg, plListOf]
    rw [getD_map_of_lt _ _ _ _ 0 (by simpa using hm)]
    rw [gtMaxOf, hscan]
    rw [getD_replicate _ _ _ _ hm]
    simpa using plInt_zero

/-- A concrete single-alternate variant for the aggregation witnesses. -/
def varC6 : VcfRecord := ⟨100, [0], [[1]], [""], ""⟩

/-- A read with no alignment to any allele (no best under ad). -/
def vaiC6b : varAlignInfo := ⟨"read3", 0, 0, 2, [NO_ALIGNMENT, NO_ALIGNMENT], false, true, true⟩

/-- A soft-clipped read (uninformative under va with overlapBits = 2). -/
def vaiC7 : varAlignInfo := ⟨"read4", 0, 0, 2, [NO_ALIGNMENT, NO_ALIGNMENT], true, true, true⟩

/-- Options with overlapBits = 2 for the uninformative-reads witness. -/
def optC7 : LRCOptions := ⟨false, 10, 100, 10, 1, 1000, 2, 1/2, 2, 1/10, 5, genotyping_model.va⟩

/-- Witness for claim C6 at a concrete input. -/
theorem claim_C6_witness :
    (genotyping_model.ad = genotyping_model.ad ∨
      genotyping_model.ad = genotyping_model.joint) ∧
    (∀ vai ∈ [vaiC5, vaiC6b], vai.alignS.length = varC6.alt.length + 1) ∧
    ((multiUpdateVC optC5 genotyping_model.ad 10 varC6 [vaiC5, vaiC6b]
        (initMUVState (varC6.alt.length + 1))).AD.getD (varC6.alt.length + 1) 0 =
      (∑ i in Finset.range (varC6.alt.length + 1),
        (multiUpdateVC optC5 genotyping_model.ad 10 varC6 [vaiC5, vaiC6b]
          (initMUVState (varC6.alt.length + 1))).AD.getD i 0) +
      List.countP (fun vai =>
        (alignmentPreference vai 10 optC5
          (List.replicate (varC6.alt.length + 1) 0)).1.isNone) [vaiC5, vaiC6b]) := by
  have hvai : ∀ vai ∈ [vaiC5, vaiC6b], vai.alignS.length = varC6.alt.length + 1 := by
    intro v hv
    rcases List.mem_cons.mp hv with h | hv2
    · subst h; rfl
    · rcases List.mem_cons.mp hv2 with h | h3
      · subst h; rfl
      · exact absurd h3 (List.not_mem_nil v)
  exact ⟨Or.inl rfl, hvai,
    claim_C6_adTotalCounter optC5 genotyping_model.ad 10 varC6 [vaiC5, vaiC6b]
      (Or.inl rfl) hvai⟩

/-- Witness for claim C7 at a concrete input. -/
theorem claim_C7_witness :
    (∀ vai ∈ [vaiC7],
      listMax (prefsOf optC7 genotyping_model.va 10 varC6.ref.length
        (varC6.alt.map List.length) vai) -
      listMin (prefsOf optC7 genotyping_model.va 10 varC6.ref.length
        (varC6.alt.map List.length) vai) ≤ 2) ∧
    ((multiUpdateVC optC7 genotyping_model.va 10 varC6 [vaiC7]
        (initMUVState (varC6.alt.length + 1))).vC =
      List.replicate ((varC6.alt.length + 1) * (varC6.alt.length + 2) / 2) 0 ∧
    gtPairOf ((multiUpdateVC optC7 genotyping_model.va 10 varC6 [vaiC7]
      (initMUVState (varC6.alt.length + 1))).vC.map (fun x => -x)) = (0, 0) ∧
    (plListOf ((multiUpdateVC optC7 genotyping_model.va 10 varC6 [vaiC7]
      (initMUVState (varC6.alt.length + 1))).vC.map (fun x => -x))).getD 0 0 = 0) := by
  have hsp : ∀ vai ∈ [vaiC7],
      listMax (prefsOf optC7 genotyping_model.va 10 varC6.ref.length
        (varC6.alt.map List.length) vai) -
      listMin (prefsOf optC7 genotyping_model.va 10 varC6.ref.length
        (varC6.alt.map List.length) vai) ≤ 2 := by
    have h1 : ¬(genotyping_model.va = genotyping_model.ad ∨
        genotyping_model.va = genotyping_model.joint) := by decide
    have h2 : genotyping_model.va = genotyping_model.va ∨
        genotyping_model.va = genotyping_model.joint := Or.inl rfl
    have h3 : ¬(genotyping_model.va = genotyping_model.va_old) := by decide
    have h4 : ¬(genotyping_model.va = genotyping_model.presence) := by decide
    have hpre : prefsOf optC7 genotyping_model.va 10 varC6.ref.length
        (varC6.alt.map List.length) vaiC7 = [2, 0] := by
      simp only [prefsOf, if_neg h1, if_pos h2, if_neg h3, if_neg h4]
      norm_num [vaPreference, vaiC7, bump, varC6, optC7, List.replicate]
    intro v hv
    rcases List.mem_cons.mp hv with h | h3b
    · subst h
      rw [hpre]
      norm_num [listMax, listMin, max_def, min_def]
    · exact absurd h3b (List.not_mem_nil v)
  exact ⟨hsp, claim_C7_uninformative optC7 genotyping_model.va 10 varC6 [vaiC7] hsp⟩

/-! ### getLocRefAlt (the allele window builder) and the processChunk tail -/

/-- Models seqan readRegion: the bases of the interval [b, e) of a contig,
clamped to the contig (out-of-range parts are empty). -/
def readRegion (g : List Nat) (b e : Int) : List Nat :=
  if 0 ≤ b ∧ b ≤ e then (g.drop b.toNat).take (e - b).toNat else []

theorem length_readRegion (g : List Nat) (b e : Int) (h0 : 0 ≤ b) (h1 : b ≤ e)
    (h2 : e ≤ (g.length : Int)) : (readRegion g b e).length = (e - b).toNat := by
  rw [readRegion, if_pos ⟨h0, h1⟩, List.length_take, List.length_drop]
  omega

/-- Embeds getLocRefAlt (src/algo.hpp:441-526).  A failed getIdByName lookup
only warns (under verbose) and leaves idx at its initial value 0, embedded by
the returned Bool flag and the getD 0 default; window construction proceeds
unconditionally.  infixWithLength becomes take/drop. -/
def getLocRefAlt (fai : String → Option Nat) (genomes : Nat → List Nat)
    (chrom : String) (var : VcfRecord) (wSizeActual : Nat) (O : LRCOptions) :
    Bool × List Nat × List (List Nat) :=
  let idx := (fai chrom).getD 0
  let warned := (fai chrom).isNone
  let g := genomes idx
  let B : Int := var.beginPos
  let L : Int := var.ref.length
  let W : Int := wSizeActual
  let refSeq := if O.genotypeRightBreakpoint
    then readRegion g (B - W + L) (B + L + W)
    else readRegion g (B - W) (B + W)
  let altSeqs := var.alt.map (fun alt =>
    let Ai : Nat := alt.length
    if ¬O.genotypeRightBreakpoint then
      let pre := readRegion g (B - W) B
      let post := if (Ai : Int) < W
        then alt ++ readRegion g (B + L) (B + L + W - Ai)
        else alt.take wSizeActual
      pre ++ post
    else
      let base := if (Ai : Int) < W
        then readRegion g (B - W + Ai) B ++ alt
        else (alt.drop (Ai - wSizeActual)).take wSizeActual
      base ++ readRegion g (B + L) (B + L + W))
  (warned, refSeq, altSeqs)

/-- Claim C8: when the reference interval reads are in range, the reference
window and every alternate window built by getLocRefAlt have length exactly
2·wSizeActual, in both breakpoint modes and for every alternate length. -/
theorem claim_C8_windowLengths (fai : String → Option Nat) (genomes : Nat → List Nat)
    (chrom : String) (var : VcfRecord) (W : Nat) (O : LRCOptions)
    (hWB : (W : Int) ≤ var.beginPos)
    (hend : var.beginPos + var.ref.length + W ≤
      ((genomes ((fai chrom).getD 0)).length : Int)) :
    (getLocRefAlt fai genomes chrom var W O).2.1.length = 2 * W ∧
    (∀ s ∈ (getLocRefAlt fai genomes chrom var W O).2.2, s.length = 2 * W) := by
  have hL : (0 : Int) ≤ var.ref.length := Int.natCast_nonneg _
  have hW : (0 : Int) ≤ W := Int.natCast_nonneg _
  have hB : (0 : Int) ≤ var.beginPos := le_trans hW hWB
  constructor
  · by_cases hbp : O.genotypeRightBreakpoint
    · simp only [getLocRefAlt, if_pos hbp]
      rw [length_readRegion _ _ _ (by omega) (by omega) (by omega)]
      omega
    · simp only [getLocRefAlt, if_neg hbp]
      rw [length_readRegion _ _ _ (by omega) (by omega) (by omega)]
      omega
  · intro s hs
    simp only [getLocRefAlt, List.mem_map] at hs
    rcases hs with ⟨alt, _hmem, rfl⟩
    have hA : (0 : Int) ≤ alt.length := Int.natCast_nonneg _
    by_cases hbp : O.genotypeRightBreakpoint
    · have hnbp : ¬¬O.genotypeRightBreakpoint = true := fun hc => hc hbp
      simp only [if_neg hnbp]
      by_cases hAi : ((alt.length : Nat) : Int) < (W : Int)
      · rw [if_pos hAi]
        rw [List.length_append, List.length_append]
        rw [length_readRegion _ _ _ (by omega) (by omega) (by omega)]
        rw [length_readRegion _ _ _ (by omega) (by omega) (by omega)]
        omega
      · rw [if_neg hAi]
        rw [List.length_append, List.length_take, List.length_drop]
        rw [length_readRegion _ _ _ (by omega) (by omega) (by omega)]
        omega
    · simp only [if_pos hbp]
      by_cases hAi : ((alt.length : Nat) : Int) < (W : Int)
      · rw [if_pos hAi]
        rw [List.length_append, List.length_append]
        rw [length_readRegion _ _ _ (by omega) (by omega) (by omega)]
        rw [length_readRegion _ _ _ (by omega) (by omega) (by omega)]
        omega
      · rw [if_neg hAi]
        rw [List.length_append, List.length_take]
        rw [length_readRegion _ _ _ (by omega) (by omega) (by omega)]
        omega

/-- An index that resolves every contig name to contig 0. -/
def faiC8 : String → Option Nat := fun _ => some 0

/-- A 400-base contig. -/
def genomesC1 : Nat → List Nat := fun _ => List.range 400

/-- A variant with alternate lengths 0, 3, 5 and 7 (below, at and above W = 5). -/
def varC8 : VcfRecord := ⟨200, [0, 0], [[], [5, 5, 5], [9, 9, 9, 9, 9], [7, 7, 7, 7, 7, 7, 7]], [""], ""⟩

/-- Options used by the window-length witness. -/
def optC1 : LRCOptions := ⟨false, 10, 100, 10, 1, 1000, 3, 1/2, 2, 1/10, 5, genotyping_model.va⟩

/-- Witness for claim C8 at a concrete input. -/
theorem claim_C8_witness :
    ((5 : Nat) : Int) ≤ varC8.beginPos ∧
    (varC8.beginPos + varC8.ref.length + (5 : Nat) ≤
      ((genomesC1 ((faiC8 "chr7").getD 0)).length : Int)) ∧
    ((getLocRefAlt faiC8 genomesC1 "chr7" varC8 5 optC1).2.1.length = 2 * 5 ∧
     (∀ s ∈ (getLocRefAlt faiC8 genomesC1 "chr7" varC8 5 optC1).2.2, s.length = 2 * 5)) := by
  have h1 : ((5 : Nat) : Int) ≤ varC8.beginPos := by norm_num [varC8]
  have h2 : varC8.beginPos + varC8.ref.length + (5 : Nat) ≤
      ((genomesC1 ((faiC8 "chr7").getD 0)).length : Int) := by
    norm_num [varC8, genomesC1, faiC8]
  exact ⟨h1, h2, claim_C8_windowLengths faiC8 genomesC1 "chr7" varC8 5 optC1 h1 h2⟩

/-- Embeds the per-variant tail of processChunk (src/algo.hpp:1186-1247) for a
single (non-multi) genotyping model: size the vC/AD/VA vectors, aggregate the
reads, and write the genotype string and format into the record.  The
varAlignInfo records are the output of the read-processing stage. -/
def processVariantTail (O : LRCOptions) (gtm : genotyping_model) (wSizeActual : Nat)
    (var : VcfRecord) (vais : List varAlignInfo) : VcfRecord :=
  let nAlleles := var.alt.length + 1
  let st := multiUpdateVC O gtm wSizeActual var vais (initMUVState nAlleles)
  let gtString := getGtString st.vC st.AD st.VA st.VAq
  { var with genotypeInfos := var.genotypeInfos.set 0 gtString,
             format := "GT:AD:VA:PL:REFREADS:ALTREADS" }

/-- An index with no entry for any contig. -/
def faiC1 : String → Option Nat := fun _ => none

/-- A variant on a contig that is missing from the reference index. -/
def varC1 : VcfRecord := ⟨200, [0], [[3, 3]], [""], ""⟩

/-- Counterexample to claim C1 as stated: for a variant whose chromosome is
missing from the FAI index the code does NOT skip the variant: getLocRefAlt
still builds a full 2·W window (against contig index 0) and processChunk
still writes a genotype string into the record. -/
theorem claim_C1_counterexample :
    faiC1 "chrX" = none ∧
    (getLocRefAlt faiC1 genomesC1 "chrX" varC1 60 optC1).1 = true ∧
    (getLocRefAlt faiC1 genomesC1 "chrX" varC1 60 optC1).2.1.length = 120 ∧
    (processVariantTail optC1 genotyping_model.va 60 varC1 []).genotypeInfos =
      ["0/0:0,0,0:0,0,0:0,0,0::"] := by
  have hz3 : ((List.replicate 3 (0 : ℚ)).map (fun x => -x)) = List.replicate 3 0 := by
    rw [List.map_replicate, neg_zero]
  have hsc : gtScan (List.replicate 3 (0 : ℚ)) = (0, (0, 0)) := by
    rw [gtScan, show (List.replicate 3 (0 : ℚ)).headD 0 = 0 from rfl]
    exact gtScanGo_zeros _ _ _
  have hpl : plListOf (List.replicate 3 (0 : ℚ)) = List.replicate 3 (0 : ℤ) := by
    rw [plListOf, gtMaxOf, hsc]
    rw [List.map_replicate]
    rw [show ((0 : ℚ) - (0, (0, 0)).1) = 0 from by norm_num]
    rw [plInt_zero]
  refine ⟨rfl, rfl, by decide, ?_⟩
  have hgt : getGtString (List.replicate 3 (0 : ℚ)) (List.replicate 3 0)
      (List.replicate 3 0) (List.replicate 3 "") = "0/0:0,0,0:0,0,0:0,0,0::" := by
    simp only [getGtString, gtPairOf, hz3, hsc, hpl]
    rfl
  show ([""].set 0 (getGtString (List.replicate 3 (0 : ℚ)) (List.replicate 3 0)
      (List.replicate 3 0) (List.replicate 3 ""))) = _
  rw [hgt]
  rfl

/-- Claim C1 amended: a variant whose contig has no entry in the reference
index is NOT skipped: the lookup failure is only flagged for the (verbose)
warning, the allele windows are built exactly as for contig index 0, reads
are still processed and a genotype string is still written into the variant
record. -/
theorem claim_C1_missingContigNotSkipped (fai : String → Option Nat)
    (genomes : Nat → List Nat) (chrom : String) (var : VcfRecord) (W : Nat)
    (O : LRCOptions) (gtm : genotyping_model) (vais : List varAlignInfo)
    (h : fai chrom = none) :
    (getLocRefAlt fai genomes chrom var W O).1 = true ∧
    (getLocRefAlt fai genomes chrom var W O).2 =
      (getLocRefAlt (fun _ => some 0) genomes chrom var W O).2 ∧
    (processVariantTail O gtm W var vais).genotypeInfos =
      var.genotypeInfos.set 0 (getGtString
        (multiUpdateVC O gtm W var vais (initMUVState (var.alt.length + 1))).vC
        (multiUpdateVC O gtm W var vais (initMUVState (var.alt.length + 1))).AD
        (multiUpdateVC O gtm W var vais (initMUVState (var.alt.length + 1))).VA
        (multiUpdateVC O gtm W var vais (initMUVState (var.alt.length + 1))).VAq) ∧
    (processVariantTail O gtm W var vais).format = "GT:AD:VA:PL:REFREADS:ALTREADS" := by
  refine ⟨?_, ?_, rfl, rfl⟩
  · simp [getLocRefAlt, h]
  · simp only [getLocRefAlt, h]
    rfl

/-- Witness for the amended claim C1 at a concrete input. -/
theorem claim_C1_witness :
    faiC1 "chr1" = none ∧
    ((getLocRefAlt faiC1 genomesC1 "chr1" varC1 60 optC1).1 = true ∧
    (getLocRefAlt faiC1 genomesC1 "chr1" varC1 60 optC1).2 =
      (getLocRefAlt (fun _ => some 0) genomesC1 "chr1" varC1 60 optC1).2 ∧
    (processVariantTail optC1 genotyping_model.va 60 varC1 []).genotypeInfos =
      ([""] : List String).set 0 (getGtString
        (multiUpdateVC optC1 genotyping_model.va 60 varC1 [] (initMUVState (varC1.alt.length + 1))).vC
        (multiUpdateVC optC1 genotyping_model.va 60 varC1 [] (initMUVState (varC1.alt.length + 1))).AD
        (multiUpdateVC optC1 genotyping_model.va 60 varC1 [] (initMUVState (varC1.alt.length + 1))).VA
        (multiUpdateVC optC1 genotyping_model.va 60 varC1 [] (initMUVState (varC1.alt.length + 1))).VAq) ∧
    (processVariantTail optC1 genotyping_model.va 60 varC1 []).format =
      "GT:AD:VA:PL:REFREADS:ALTREADS") :=
  ⟨rfl, claim_C1_missingContigNotSkipped faiC1 genomesC1 "chr1" varC1 60 optC1
    genotyping_model.va [] rfl⟩

/-! ### parseReads (the read selector) -/

/-- Models seqan getAlignmentLengthInRef: bases of reference covered by the
alignment (M, D, N, =, X operations). -/
def getAlignmentLengthInRef (cig : List CigarElement) : Nat :=
  (cig.map (fun c =>
    if c.operation = 'M' ∨ c.operation = 'D' ∨ c.operation = 'N' ∨
       c.operation = '=' ∨ c.operation = 'X' then c.count else 0)).sum

/-- The name-deduplicating insertion of parseReads (src/algo.hpp:1059-1073):
a later record with a known query name overwrites the earlier slot in place,
otherwise it is appended. -/
def insertCandidate (cands : List BamAlignmentRecord) (r : BamAlignmentRecord) :
    List BamAlignmentRecord :=
  match cands.findIdx? (fun c => decide (c.qName = r.qName)) with
  | some j => cands.set j r
  | none => cands ++ [r]

/-- The selection window begin of parseReads (src/algo.hpp:980-987). -/
def selectorBeg (O : LRCOptions) (var : VcfRecord) (W : Nat) : Int :=
  var.beginPos - W + (if O.genotypeRightBreakpoint then (var.ref.length : Int) else 0)

/-- The selection window end of parseReads. -/
def selectorEnd (O : LRCOptions) (var : VcfRecord) (W : Nat) : Int :=
  var.beginPos + W + (if O.genotypeRightBreakpoint then (var.ref.length : Int) else 0)

/-- stopReading of parseReads (src/algo.hpp:995-997): the window BEGIN in
left-breakpoint mode, the window end in right-breakpoint mode. -/
def stopReadingOf (O : LRCOptions) (var : VcfRecord) (W : Nat) : Int :=
  if O.genotypeRightBreakpoint then selectorEnd O var W else selectorBeg O var W

/-- The skip conditions of src/algo.hpp:1008-1009: the read does not stretch
to the window begin (by sequence length or by reference alignment length) or
has low mapping quality. -/
def prefilterSkip (O : LRCOptions) (beg : Int) (r : BamAlignmentRecord) : Prop :=
  r.beginPos + r.seq.length < beg ∨
  r.beginPos + getAlignmentLengthInRef r.cigar < beg ∨ r.mapQ < O.minMapQ

instance (O : LRCOptions) (beg : Int) (r : BamAlignmentRecord) :
    Decidable (prefilterSkip O beg r) := by unfold prefilterSkip; infer_instance

/-- The clip-and-flag acceptance of src/algo.hpp:1022-1057: not terminally
soft-clipped past maxSoftClipped on the breakpoint side, not a duplicate,
has not failed QC, and not hard-clipped on either end. -/
def clipFlagOK (O : LRCOptions) (r : BamAlignmentRecord) : Bool :=
  let c0 := r.cigar.headD ⟨'M', 0⟩
  let cL := r.cigar.getLastD ⟨'M', 0⟩
  let softClipRemove : Bool :=
    if O.genotypeRightBreakpoint
    then decide (cL.operation = 'S' ∧ O.maxSoftClipped < cL.count)
    else decide (c0.operation = 'S' ∧ O.maxSoftClipped < c0.count)
  let hardClipped : Bool := decide (c0.operation = 'H' ∨ cL.operation = 'H')
  !softClipRemove && !r.flagDuplicate && !r.flagQCNoPass && !hardClipped

/-- The read loop of parseReads (src/algo.hpp:1002-1078): return when the
candidate cap is reached or the record begins after stopReading; skip records
failing the prefilters; break (after the CIGAR examination) when the record
begins at or after the window end; otherwise insert clip-and-flag-clean
records with name deduplication. -/
def parseReadsGo (O : LRCOptions) (beg end_ stopReading : Int) :
    List BamAlignmentRecord → List BamAlignmentRecord → List BamAlignmentRecord
  | cands, [] => cands
  | cands, r :: rest =>
    if O.maxBARcount ≤ cands.length ∨ stopReading < r.beginPos then cands
    else if prefilterSkip O beg r then parseReadsGo O beg end_ stopReading cands rest
    else if end_ ≤ r.beginPos then cands
    else if clipFlagOK O r then
      parseReadsGo O beg end_ stopReading (insertCandidate cands r) rest
    else parseReadsGo O beg end_ stopReading cands rest

/-- Embeds parseReads (src/algo.hpp:973-1082), returning the selected
candidate records in order. -/
def parseReads (O : LRCOptions) (var : VcfRecord) (wSizeActual : Nat)
    (bars : List BamAlignmentRecord) : List BamAlignmentRecord :=
  parseReadsGo O (selectorBeg O var wSizeActual) (selectorEnd O var wSizeActual)
    (stopReadingOf O var wSizeActual) [] bars

/-- The full per-read filter of parseReads as a single predicate. -/
def passesRead (O : LRCOptions) (beg : Int) (r : BamAlignmentRecord) : Bool :=
  !(decide (prefilterSkip O beg r)) && clipFlagOK O r

/-- Options for the read-selector claims (left-breakpoint mode). -/
def optC2 : LRCOptions := ⟨false, 10, 100, 0, 1, 1000, 3, 1/2, 2, 1/10, 5, genotyping_model.ad⟩

/-- A single-alternate variant at position 200 for the selector claims. -/
def varC2 : VcfRecord := ⟨200, [0], [[1]], [""], ""⟩

/-- A clean read inside the selection window [100, 300) beginning at 150. -/
def rC2 : BamAlignmentRecord := ⟨"r1", 150, 60, List.replicate 50 0, [⟨'M', 50⟩], false, false⟩

/-- Counterexample to claim C2 as stated: in left-breakpoint mode a read
beginning at 150, strictly inside the selection window [100, 300), passing
every per-read filter, with the candidate cap far from reached, is never
examined and never added: iteration stops because 150 > stopReading = B − W
= 100, not because 150 ≥ 300 = window end. -/
theorem claim_C2_counterexample :
    rC2.beginPos < selectorEnd optC2 varC2 100 ∧
    passesRead optC2 (selectorBeg optC2 varC2 100) rC2 = true ∧
    [rC2].countP (passesRead optC2 (selectorBeg optC2 varC2 100)) ≤ optC2.maxBARcount ∧
    parseReads optC2 varC2 100 [rC2] = [] := by
  refine ⟨by decide, by decide, by decide, by decide⟩

theorem findIdx?_none_of {α : Type} (p : α → Bool) :
    ∀ (l : List α) (i : Nat), (∀ a ∈ l, p a = false) → List.findIdx? p l i = none := by
  intro l
  induction l with
  | nil => intro i _; rfl
  | cons a l ih =>
    intro i h
    rw [List.findIdx?]
    rw [if_neg (by simp [h a (List.mem_cons_self _ _)])]
    exact ih (i + 1) (fun b hb => h b (List.mem_cons_of_mem _ hb))

theorem insertCandidate_eq_append (cands : List BamAlignmentRecord)
    (r : BamAlignmentRecord) (h : ∀ c ∈ cands, c.qName ≠ r.qName) :
    insertCandidate cands r = cands ++ [r] := by
  have hnone : cands.findIdx? (fun c => decide (c.qName = r.qName)) = none :=
    findIdx?_none_of _ cands 0 (fun a ha => by simp [h a ha])
  rw [insertCandidate, hnone]

theorem parseReadsGo_stop (O : LRCOptions) (beg end_ stop : Int)
    (r : BamAlignmentRecord) (hr : stop < r.beginPos) :
    ∀ (pre cands post : List BamAlignmentRecord),
      parseReadsGo O beg end_ stop cands (pre ++ r :: post) =
        parseReadsGo O beg end_ stop cands pre := by
  intro pre
  induction pre with
  | nil =>
    intro cands post
    show parseReadsGo O beg end_ stop cands (r :: post) = _
    simp only [parseReadsGo]
    rw [if_pos (Or.inr hr)]
  | cons p pre ih =>
    intro cands post
    rw [List.cons_append]
    simp only [parseReadsGo]
    split_ifs <;> first | rfl | apply ih

theorem parseReadsGo_filter (O : LRCOptions) (beg end_ stop : Int) :
    ∀ (bars cands : List BamAlignmentRecord),
      (∀ b ∈ bars, b.beginPos ≤ stop ∧ b.beginPos < end_) →
      bars.Pairwise (fun a b => a.qName ≠ b.qName) →
      (∀ b ∈ bars, ∀ c ∈ cands, c.qName ≠ b.qName) →
      cands.length + bars.countP (passesRead O beg) ≤ O.maxBARcount →
      parseReadsGo O beg end_ stop cands bars =
        cands ++ bars.filter (passesRead O beg) := by
  intro bars
  induction bars with
  | nil => intro cands _ _ _ _; simp [parseReadsGo]
  | cons r rest ih =>
    intro cands hbnd hpw hdisj hcap
    obtain ⟨hstop, hend⟩ := hbnd r (List.mem_cons_self _ _)
    by_cases hfull : O.maxBARcount ≤ cands.length
    · have hcnt : (r :: rest).countP (passesRead O beg) = 0 := by omega
      have hfil : (r :: rest).filter (passesRead O beg) = [] :=
        List.filter_eq_nil_iff.mpr (by
          intro a ha
          have := List.countP_eq_zero.mp hcnt a ha
          simpa using this)
      rw [hfil, List.append_nil]
      simp only [parseReadsGo]
      rw [if_pos (Or.inl hfull)]
    · have htop : ¬(O.maxBARcount ≤ cands.length ∨ stop < r.beginPos) := by
        push_neg
        exact ⟨by omega, by omega⟩
      simp only [parseReadsGo]
      rw [if_neg htop]
      by_cases hpre : prefilterSkip O beg r
      · rw [if_pos hpre]
        have hpf : passesRead O beg r = false := by
          simp [passesRead, hpre]
        have hc2 : (r :: rest).countP (passesRead O beg) =
            rest.countP (passesRead O beg) :=
          List.countP_cons_of_neg _ _ (by simp [hpf])
        rw [List.filter_cons_of_neg (by simp [hpf])]
        exact ih cands (fun b hb => hbnd b (List.mem_cons_of_mem _ hb)) hpw.of_cons
          (fun b hb c hc => hdisj b (List.mem_cons_of_mem _ hb) c hc) (by omega)
      · rw [if_neg hpre, if_neg (not_le.mpr hend)]
        by_cases hok : clipFlagOK O r = true
        · rw [if_pos hok]
          have hpt : passesRead O beg r = true := by
            simp [passesRead, hpre, hok]
          have hins : insertCandidate cands r = cands ++ [r] :=
            insertCandidate_eq_append cands r
              (fun c hc => hdisj r (List.mem_cons_self _ _) c hc)
          rw [hins]
          have hc2 : (r :: rest).countP (passesRead O beg) =
              rest.countP (passesRead O beg) + 1 :=
            List.countP_cons_of_pos _ _ hpt
          rw [List.filter_cons_of_pos hpt]
          rw [ih (cands ++ [r]) (fun b hb => hbnd b (List.mem_cons_of_mem _ hb))
            hpw.of_cons ?_ ?_]
          · simp
          · intro b hb c hc
            rcases List.mem_append.mp hc with hc1 | hc2b
            · exact hdisj b (List.mem_cons_of_mem _ hb) c hc1
            · rw [List.mem_singleton.mp hc2b]
              exact (List.pairwise_cons.mp hpw).1 b hb
          · rw [List.length_append]
            simp only [List.length_singleton]
            omega
        · rw [if_neg hok]
          have hpf : passesRead O beg r = false := by
            simp only [Bool.not_eq_true] at hok
            simp [passesRead, hok]
          have hc2 : (r :: rest).countP (passesRead O beg) =
              rest.countP (passesRead O beg) :=
            List.countP_cons_of_neg _ _ (by simp [hpf])
          rw [List.filter_cons_of_neg (by simp [hpf])]
          exact ih cands (fun b hb => hbnd b (List.mem_cons_of_mem _ hb)) hpw.of_cons
            (fun b hb c hc => hdisj b (List.mem_cons_of_mem _ hb) c hc) (by omega)

/-- Claim C2 amended: iteration stops when a read's begin position exceeds
stopReading — which is B − W in left-breakpoint mode (not the window end) and
B + W + refLen in right-breakpoint mode — or when maxBARcount candidates are
collected: everything from the first such read on is never examined; and for
position-bounded inputs (every begin at or before stopReading and strictly
before the window end) with pairwise distinct names and the candidate cap
not exceeded, the output is exactly the in-order list of reads passing the
per-read filters. -/
theorem claim_C2_parseReadsStop (O : LRCOptions) (var : VcfRecord) (W : Nat) :
    (∀ (pre post : List BamAlignmentRecord) (r : BamAlignmentRecord),
      stopReadingOf O var W < r.beginPos →
      parseReads O var W (pre ++ r :: post) = parseReads O var W pre) ∧
    (∀ bars : List BamAlignmentRecord,
      (∀ b ∈ bars, b.beginPos ≤ stopReadingOf O var W ∧
        b.beginPos < selectorEnd O var W) →
      bars.Pairwise (fun a b => a.qName ≠ b.qName) →
      bars.countP (passesRead O (selectorBeg O var W)) ≤ O.maxBARcount →
      parseReads O var W bars =
        bars.filter (passesRead O (selectorBeg O var W))) := by
  constructor
  · intro pre post r hr
    exact parseReadsGo_stop O _ _ _ r hr pre [] post
  · intro bars h1 h2 h3
    have := parseReadsGo_filter O (selectorBeg O var W) (selectorEnd O var W)
      (stopReadingOf O var W) bars [] h1 h2
      (by intro b _ c hc; simp at hc) (by simpa using h3)
    simpa [parseReads] using this

/-- A clean read at position 90, at or before stopReading = 100. -/
def rC2b : BamAlignmentRecord := ⟨"r2", 90, 60, List.replicate 50 0, [⟨'M', 50⟩], false, false⟩

/-- Witness for the amended claim C2 at a concrete input. -/
theorem claim_C2_witness :
    ((∀ b ∈ [rC2b], b.beginPos ≤ stopReadingOf optC2 varC2 100 ∧
        b.beginPos < selectorEnd optC2 varC2 100) ∧
     ([rC2b] : List BamAlignmentRecord).Pairwise (fun a b => a.qName ≠ b.qName) ∧
     [rC2b].countP (passesRead optC2 (selectorBeg optC2 varC2 100)) ≤
       optC2.maxBARcount) ∧
    parseReads optC2 varC2 100 [rC2b] =
      [rC2b].filter (passesRead optC2 (selectorBeg optC2 varC2 100)) := by
  have h1 : ∀ b ∈ [rC2b], b.beginPos ≤ stopReadingOf optC2 varC2 100 ∧
      b.beginPos < selectorEnd optC2 varC2 100 := by
    intro b hb
    rw [List.mem_singleton.mp hb]
    exact ⟨by decide, by decide⟩
  have h2 : ([rC2b] : List BamAlignmentRecord).Pairwise (fun a b => a.qName ≠ b.qName) :=
    List.pairwise_singleton _ _
  have h3 : [rC2b].countP (passesRead optC2 (selectorBeg optC2 varC2 100)) ≤
      optC2.maxBARcount := by decide
  exact ⟨⟨h1, h2, h3⟩, (claim_C2_parseReadsStop optC2 varC2 100).2 [rC2b] h1 h2 h3⟩

/-! ### cropSeq (the read window cropper) -/

/-- Reference advance of one CIGAR element in the cropSeq walk
(src/algo.hpp:557-575): D, =, X, M advance alignPos. -/
def refConsume (c : CigarElement) : Int :=
  if c.operation = 'D' ∨ c.operation = '=' ∨ c.operation = 'X' ∨ c.operation = 'M'
  then c.count else 0

/-- Read advance of one CIGAR element in the cropSeq walk: =, X, M (by
fallthrough) and S, I advance readPos. -/
def readConsume (c : CigarElement) : Int :=
  if c.operation = '=' ∨ c.operation = 'X' ∨ c.operation = 'M' ∨
     c.operation = 'S' ∨ c.operation = 'I'
  then c.count else 0

/-- The cropSeq loop state: reference position, read position, the read
position before the last processed element, and the last operation. -/
structure CropState where
  alignPos : Int
  readPos : Int
  lReadPos : Int
  lastOp : Char
deriving DecidableEq, Repr

/-- One iteration of the cropSeq while body. -/
def applyCropOp (c : CigarElement) (st : CropState) : CropState :=
  ⟨st.alignPos + refConsume c, st.readPos + readConsume c, st.readPos, c.operation⟩

/-- The cropSeq while loop (src/algo.hpp:551-581): process CIGAR elements
while alignPos < searchPos. -/
def cropWalk (searchPos : Int) : CropState → List CigarElement → CropState
  | st, [] => st
  | st, c :: rest =>
    if st.alignPos < searchPos then cropWalk searchPos (applyCropOp c st) rest
    else st

/-- Total reference consumption of a CIGAR string. -/
def refSumC (cig : List CigarElement) : Int := (cig.map refConsume).sum

/-- Total read consumption of a CIGAR string. -/
def readSumC (cig : List CigarElement) : Int := (cig.map readConsume).sum

/-- Embeds the crop-bound computation of cropSeq (src/algo.hpp:529-637):
the CIGAR walk up to searchPos (clamped at 0), the S/H readPos revert, the
per-mode raw bounds, the three clamps and the rBeg == rEnd fallback. -/
def cropBounds (bar : BamAlignmentRecord) (var : VcfRecord) (wSizeActual : Int)
    (O : LRCOptions) : Int × Int :=
  let searchPos : Int := max (if O.genotypeRightBreakpoint
    then var.beginPos + var.ref.length + wSizeActual
    else var.beginPos - wSizeActual) 0
  let st := cropWalk searchPos ⟨bar.beginPos, 0, 0, (bar.cigar.headD ⟨'M', 0⟩).operation⟩
    bar.cigar
  let readPos := if st.lastOp = 'S' ∨ st.lastOp = 'H' then st.lReadPos else st.readPos
  let be : Int × Int :=
    if O.genotypeRightBreakpoint then
      if searchPos - 2 * wSizeActual ≤ st.alignPos then
        (readPos - 2 * wSizeActual + (searchPos - st.alignPos),
         readPos + (searchPos - st.alignPos))
      else (readPos, readPos + wSizeActual)
    else
      (readPos - (st.alignPos - searchPos),
       readPos + 2 * wSizeActual - (st.alignPos - searchPos))
  let rBeg1 := if be.1 < 0 then 0 else be.1
  let rEnd1 := if be.2 < 2 * wSizeActual then 2 * wSizeActual else be.2
  let rEnd2 := if (bar.seq.length : Int) < rEnd1 then (bar.seq.length : Int) else rEnd1
  let rBeg2 := if rEnd2 = rBeg1 then rBeg1 - 1 else rBeg1
  (rBeg2, rEnd2)

/-- Embeds the final infixWithLength(bar.seq, rBeg, rEnd - rBeg) of cropSeq. -/
def cropSeq (bar : BamAlignmentRecord) (var : VcfRecord) (wSizeActual : Int)
    (O : LRCOptions) : List Nat :=
  let be := cropBounds bar var wSizeActual O
  (bar.seq.drop be.1.toNat).take (be.2 - be.1).toNat

theorem readConsume_nonneg (c : CigarElement) : 0 ≤ readConsume c := by
  rw [readConsume]
  split_ifs
  · exact Int.natCast_nonneg _
  · exact le_refl 0

theorem readSumC_nonneg (cig : List CigarElement) : 0 ≤ readSumC cig := by
  induction cig with
  | nil => simp [readSumC]
  | cons c cig ih =>
    have := readConsume_nonneg c
    simp only [readSumC, List.map_cons, List.sum_cons]
    simp only [readSumC] at ih
    omega

theorem readSumC_cons (c : CigarElement) (cig : List CigarElement) :
    readSumC (c :: cig) = readConsume c + readSumC cig := by
  simp [readSumC]

theorem refSumC_cons (c : CigarElement) (cig : List CigarElement) :
    refSumC (c :: cig) = refConsume c + refSumC cig := by
  simp [refSumC]

/-- Invariants of the cropSeq walk: the saved read position stays nonneg and
below the read position, the read position is bounded by the total read
consumption, and at exit the walk either reached searchPos or consumed the
whole CIGAR. -/
theorem cropWalk_spec (searchPos : Int) :
    ∀ (cig : List CigarElement) (st : CropState),
      0 ≤ st.lReadPos → st.lReadPos ≤ st.readPos →
      (0 ≤ (cropWalk searchPos st cig).lReadPos ∧
       (cropWalk searchPos st cig).lReadPos ≤ (cropWalk searchPos st cig).readPos ∧
       (cropWalk searchPos st cig).readPos ≤ st.readPos + readSumC cig ∧
       (searchPos ≤ (cropWalk searchPos st cig).alignPos ∨
        (cropWalk searchPos st cig).alignPos = st.alignPos + refSumC cig)) := by
  intro cig
  induction cig with
  | nil =>
    intro st h0 h1
    refine ⟨h0, h1, by simp [cropWalk, readSumC], Or.inr (by simp [cropWalk, refSumC])⟩
  | cons c cig ih =>
    intro st h0 h1
    by_cases h : st.alignPos < searchPos
    · have hred : cropWalk searchPos st (c :: cig) =
          cropWalk searchPos (applyCropOp c st) cig := by
        simp only [cropWalk]
        rw [if_pos h]
      rw [hred]
      have hc := readConsume_nonneg c
      have hpr : (applyCropOp c st).readPos = st.readPos + readConsume c := rfl
      have hpa : (applyCropOp c st).alignPos = st.alignPos + refConsume c := rfl
      have hpl : (applyCropOp c st).lReadPos = st.readPos := rfl
      rcases ih (applyCropOp c st) (by rw [hpl]; omega)
        (by rw [hpl, hpr]; omega) with ⟨g0, g1, g2, g3⟩
      refine ⟨g0, g1, ?_, ?_⟩
      · rw [hpr] at g2
        rw [readSumC_cons]
        omega
      · rcases g3 with g3 | g3
        · exact Or.inl g3
        · right
          rw [hpa] at g3
          rw [refSumC_cons]
          omega
    · have hred : cropWalk searchPos st (c :: cig) = st := by
        simp only [cropWalk]
        rw [if_neg h]
      rw [hred]
      have hnn := readSumC_nonneg (c :: cig)
      exact ⟨h0, h1, by omega, Or.inl (by omega)⟩

/-- A 5-base read at position 0 whose alignment ends far before the window. -/
def rC9 : BamAlignmentRecord := ⟨"r9", 0, 60, List.replicate 5 0, [⟨'M', 5⟩], false, false⟩

/-- The variant used for the cropper claims (left-breakpoint window at 100). -/
def varC9 : VcfRecord := ⟨200, [0], [[1]], [""], ""⟩

/-- Counterexample to claim C9 as stated: for a read with non-empty sequence
and wSizeActual = 100 ≥ 1, the left-breakpoint CIGAR walk is exhausted before
reaching searchPos (rShift = -95 < 0) and the final bounds are rBeg = 100,
rEnd = 5: rBeg < rEnd fails and the returned crop is empty, not a valid
non-empty infix. -/
theorem claim_C9_counterexample :
    rC9.seq ≠ [] ∧ (1 : Int) ≤ 100 ∧
    cropBounds rC9 varC9 100 optC2 = (100, 5) ∧
    ¬((0 : Int) ≤ (cropBounds rC9 varC9 100 optC2).1 ∧
      (cropBounds rC9 varC9 100 optC2).1 < (cropBounds rC9 varC9 100 optC2).2 ∧
      (cropBounds rC9 varC9 100 optC2).2 ≤ (rC9.seq.length : Int)) ∧
    cropSeq rC9 varC9 100 optC2 = [] := by
  refine ⟨by decide, by decide, by decide, by decide, by decide⟩

/-- Claim C9 amended: the crop bounds are valid — 0 ≤ rBeg < rEnd ≤ len(seq),
so the returned infix is an in-bounds non-empty window of length rEnd − rBeg
(including the rBeg = rEnd fallback) — for every read with non-empty
sequence, wSizeActual ≥ 1 and read-consistent CIGAR, PROVIDED that in
left-breakpoint mode the read's reference span reaches searchPos (which the
selector's reach filter guarantees for the reads the pipeline passes to
cropSeq); the exhausted-walk case (rShift < 0) of the original claim is
exactly the unprotected one. -/
theorem claim_C9_cropBoundsValid (bar : BamAlignmentRecord) (var : VcfRecord)
    (W : Int) (O : LRCOptions)
    (hs : bar.seq ≠ []) (hW : 1 ≤ W)
    (hread : readSumC bar.cigar ≤ (bar.seq.length : Int))
    (hreach : ¬O.genotypeRightBreakpoint = true →
      max (var.beginPos - W) 0 ≤ bar.beginPos + refSumC bar.cigar) :
    0 ≤ (cropBounds bar var W O).1 ∧
    (cropBounds bar var W O).1 < (cropBounds bar var W O).2 ∧
    (cropBounds bar var W O).2 ≤ (bar.seq.length : Int) ∧
    (cropSeq bar var W O).length =
      ((cropBounds bar var W O).2 - (cropBounds bar var W O).1).toNat := by
  have hlen : 1 ≤ (bar.seq.length : Int) := by
    have : 0 < bar.seq.length := List.length_pos.mpr hs
    omega
  have key : 0 ≤ (cropBounds bar var W O).1 ∧
      (cropBounds bar var W O).1 < (cropBounds bar var W O).2 ∧
      (cropBounds bar var W O).2 ≤ (bar.seq.length : Int) := by
    by_cases hbp : O.genotypeRightBreakpoint = true
    · simp only [cropBounds, if_pos hbp]
      rcases cropWalk_spec (max (var.beginPos + var.ref.length + W) 0) bar.cigar
        ⟨bar.beginPos, 0, 0, (bar.cigar.headD ⟨'M', 0⟩).operation⟩
        (le_refl 0) (le_refl 0) with ⟨g0, g1, g2, _⟩
      simp only at g0 g1 g2
      split_ifs <;> constructor <;> try constructor
      all_goals omega
    · simp only [cropBounds, if_neg hbp]
      rcases cropWalk_spec (max (var.beginPos - W) 0) bar.cigar
        ⟨bar.beginPos, 0, 0, (bar.cigar.headD ⟨'M', 0⟩).operation⟩
        (le_refl 0) (le_refl 0) with ⟨g0, g1, g2, g3⟩
      simp only at g0 g1 g2 g3
      have halign : max (var.beginPos - W) 0 ≤
          (cropWalk (max (var.beginPos - W) 0)
            ⟨bar.beginPos, 0, 0, (bar.cigar.headD ⟨'M', 0⟩).operation⟩
            bar.cigar).alignPos := by
        rcases g3 with g3 | g3
        · exact g3
        · rw [g3]
          exact hreach hbp
      split_ifs <;> constructor <;> try constructor
      all_goals omega
  refine ⟨key.1, key.2.1, key.2.2, ?_⟩
  rcases key with ⟨k1, k2, k3⟩
  simp only [cropSeq]
  rw [List.length_take, List.length_drop]
  omega

/-- A read that spans the selection window (reach filter satisfied). -/
def rC9b : BamAlignmentRecord := ⟨"r9b", 90, 60, List.replicate 120 0, [⟨'M', 120⟩], false, false⟩

/-- Witness for the amended claim C9 at a concrete input. -/
theorem claim_C9_witness :
    rC9b.seq ≠ [] ∧ (1 : Int) ≤ 100 ∧
    readSumC rC9b.cigar ≤ (rC9b.seq.length : Int) ∧
    (¬optC2.genotypeRightBreakpoint = true →
      max (varC9.beginPos - 100) 0 ≤ rC9b.beginPos + refSumC rC9b.cigar) ∧
    (0 ≤ (cropBounds rC9b varC9 100 optC2).1 ∧
     (cropBounds rC9b varC9 100 optC2).1 < (cropBounds rC9b varC9 100 optC2).2 ∧
     (cropBounds rC9b varC9 100 optC2).2 ≤ (rC9b.seq.length : Int) ∧
     (cropSeq rC9b varC9 100 optC2).length =
       ((cropBounds rC9b varC9 100 optC2).2 - (cropBounds rC9b varC9 100 optC2).1).toNat) := by
  refine ⟨by decide, by decide, by decide, fun h => by decide,
    claim_C9_cropBoundsValid rC9b varC9 100 optC2 (by decide) (by decide) (by decide)
      (fun h => by decide)⟩
